import Mathlib

/-!
Verification of the voxel-world repository (voxel.py, chunk.py, noise.py,
world.py) against its natural-language specification.

The Python sources are shallowly embedded:
* machine integers are `Int`/`Nat` (Python integers are unbounded);
* Python floats appearing in integer-only pipelines are modelled exactly:
  `pyFloatInt` is the value of `float(w)` for an integer `w` (IEEE-754
  binary64 round-to-nearest-even on the integer, which is again an integer),
  and quantities that stay rational (the Perlin-noise pipeline, the DDA
  ray-march) are modelled over `ℚ`, the exact-arithmetic idealisation;
* `dict`s become `Option`-valued functions, mutation becomes explicit state
  passing, and Python's `random` module is an abstract state-threaded
  generator (`RandModel`), since the terrain code re-seeds it from chunk
  coordinates before use;
* the attribute lookups `BlockType.X` performed by world.py are modelled by
  `blockTypeAttr`; a lookup of a missing member (an `AttributeError` in
  Python) surfaces as `Except.error`.
-/

/-! ## voxel.py -/

/-- Block type enumeration of voxel.py (`class BlockType(IntEnum)`):
its only members are AIR, GRASS, DIRT, STONE. -/
inductive BlockType where
  | AIR
  | GRASS
  | DIRT
  | STONE
deriving DecidableEq, Repr

/-- The attribute names under which world.py accesses members of
`BlockType` (`BlockType.AIR`, …, `BlockType.WOOD`, `BlockType.LEAVES`). -/
inductive BlockAttr where
  | AIR
  | GRASS
  | DIRT
  | STONE
  | WOOD
  | LEAVES
deriving DecidableEq, Repr

/-- Attribute lookup on the `BlockType` enumeration: `some` for the four
declared members, `none` (Python: `AttributeError`) otherwise. -/
def blockTypeAttr : BlockAttr → Option BlockType
  | .AIR => some .AIR
  | .GRASS => some .GRASS
  | .DIRT => some .DIRT
  | .STONE => some .STONE
  | .WOOD => none
  | .LEAVES => none

/-- Face direction enumeration of voxel.py. -/
inductive Face where
  | TOP
  | BOTTOM
  | FRONT
  | BACK
  | LEFT
  | RIGHT
deriving DecidableEq, Repr

/-- Iteration order of `for face in Face` (IntEnum declaration order). -/
def faceList : List Face :=
  [Face.TOP, Face.BOTTOM, Face.FRONT, Face.BACK, Face.LEFT, Face.RIGHT]

/-- `FACE_DIRECTIONS` of voxel.py. -/
def FACE_DIRECTIONS : Face → ℤ × ℤ × ℤ
  | .TOP => (0, 1, 0)
  | .BOTTOM => (0, -1, 0)
  | .FRONT => (0, 0, 1)
  | .BACK => (0, 0, -1)
  | .LEFT => (-1, 0, 0)
  | .RIGHT => (1, 0, 0)

/-- `FACE_VERTICES` of voxel.py (vertex offsets of each quad; all offsets
are 0/1 so they are kept as integers). -/
def FACE_VERTICES : Face → List (ℤ × ℤ × ℤ)
  | .TOP => [(0, 1, 0), (1, 1, 0), (1, 1, 1), (0, 1, 1)]
  | .BOTTOM => [(0, 0, 1), (1, 0, 1), (1, 0, 0), (0, 0, 0)]
  | .FRONT => [(0, 0, 1), (0, 1, 1), (1, 1, 1), (1, 0, 1)]
  | .BACK => [(1, 0, 0), (1, 1, 0), (0, 1, 0), (0, 0, 0)]
  | .LEFT => [(0, 0, 0), (0, 1, 0), (0, 1, 1), (0, 0, 1)]
  | .RIGHT => [(1, 0, 1), (1, 1, 1), (1, 1, 0), (1, 0, 0)]

/-- `QUAD_INDICES` of voxel.py. -/
def QUAD_INDICES : List ℕ := [0, 1, 2, 0, 2, 3]

/-- `ATLAS_WIDTH` of voxel.py. -/
def ATLAS_WIDTH : ℕ := 4

/-- `BLOCK_TEXTURES` of voxel.py (texture index per block type and face;
only non-AIR block types appear in the Python dict). -/
def BLOCK_TEXTURES : BlockType → Face → ℕ
  | .GRASS, .TOP => 0
  | .GRASS, .BOTTOM => 2
  | .GRASS, _ => 1
  | .DIRT, _ => 2
  | .STONE, _ => 3
  | .AIR, _ => 0

/-- `get_block_uvs` of voxel.py. -/
def get_block_uvs (b : BlockType) (f : Face) : ℚ × ℚ × ℚ × ℚ :=
  if b = BlockType.AIR then (0, 0, 0, 0)
  else
    let ti : ℚ := (BLOCK_TEXTURES b f : ℚ)
    (ti / (ATLAS_WIDTH : ℚ), 0, (ti + 1) / (ATLAS_WIDTH : ℚ), 1)

/-! ## chunk.py: block storage -/

/-- `CHUNK_SIZE` of chunk.py. -/
def CHUNK_SIZE : ℤ := 16

/-- The 16×16×16 block array `blocks[x][y][z]`, as a function; only indices
in `[0, 16)³` are ever read or written by the embedded code. -/
def Blocks : Type := ℤ → ℤ → ℤ → BlockType

/-- Mesh buffers produced by `Chunk.generate_mesh` (vertex positions are
integers here because every emitted coordinate is `block index + 0/1`). -/
structure MeshData where
  vertices : List (ℤ × ℤ × ℤ)
  triangles : List ℕ
  uvs : List (ℚ × ℚ)
deriving Repr

/-- The mutable state of a `Chunk` object: its block array, its
`_mesh_dirty` flag and its current model (`none` = no mesh). -/
structure ChunkState where
  blocks : Blocks
  meshDirty : Bool
  mesh : Option MeshData

/-- A freshly constructed chunk: all blocks AIR, mesh dirty, no model. -/
def ChunkState.init : ChunkState :=
  { blocks := fun _ _ _ => BlockType.AIR, meshDirty := true, mesh := none }

/-- Local coordinates in range, the guard of `Chunk.set_block` /
`Chunk.get_block`. -/
def inChunkRange (x y z : ℤ) : Prop :=
  0 ≤ x ∧ x < CHUNK_SIZE ∧ 0 ≤ y ∧ y < CHUNK_SIZE ∧ 0 ≤ z ∧ z < CHUNK_SIZE

instance (x y z : ℤ) : Decidable (inChunkRange x y z) := by
  unfold inChunkRange; infer_instance

/-- `Chunk.set_block`: in-range writes overwrite the cell and set the dirty
flag; out-of-range writes are a no-op. -/
def ChunkState.set_block (c : ChunkState) (lx ly lz : ℤ) (b : BlockType) :
    ChunkState :=
  if inChunkRange lx ly lz then
    { c with
      blocks := fun x y z =>
        if x = lx ∧ y = ly ∧ z = lz then b else c.blocks x y z
      meshDirty := true }
  else c

/-- `Chunk.get_block`: AIR for out-of-range reads. -/
def ChunkState.get_block (c : ChunkState) (lx ly lz : ℤ) : BlockType :=
  if inChunkRange lx ly lz then c.blocks lx ly lz else BlockType.AIR

/-- The world's chunk dictionary `self.chunks`, keyed by chunk position
(`World.get_chunk` is exactly application of this map). -/
def WorldChunks : Type := ℤ × ℤ × ℤ → Option ChunkState

/-! ## chunk.py: world/local coordinate conversion

`world_to_chunk_pos` computes `math.floor(world / CHUNK_SIZE)` with `/` the
Python float division: the integer is first rounded to an IEEE-754 binary64
value (`pyFloatInt`, exact only up to 2^53), the division by 16 is then an
exact exponent shift, and `math.floor` of the result is exact.
`world_to_local_pos` computes `world % CHUNK_SIZE` on exact integers
(Python `%` is Euclidean modulo for a positive modulus, i.e. `Int.emod`).
-/

/-- Number of binary digits of `n` (fuel-based so that it evaluates inside
the kernel; 64 bits of fuel covers every integer exercised here). -/
def bitLenFuel : ℕ → ℕ → ℕ
  | 0, _ => 0
  | fuel + 1, n => if n = 0 then 0 else bitLenFuel fuel (n / 2) + 1

/-- Bit length of a natural number below `2 ^ 64`. -/
def bitLen (n : ℕ) : ℕ := bitLenFuel 64 n

/-- Round a natural number to 53 significant bits, ties to even: this is
the mantissa rounding that `float(w)` performs on an integer. -/
def roundMant53 (n : ℕ) : ℕ :=
  if n < 2 ^ 53 then n
  else
    let k := bitLen n - 53
    let q := n / 2 ^ k
    let r := n % 2 ^ k
    let h := 2 ^ (k - 1)
    let q' := if h < r then q + 1
      else if r < h then q
      else if q % 2 = 0 then q else q + 1
    q' * 2 ^ k

/-- The exact value of `float(w)` for an integer `w` (binary64 conversion;
overflow to infinity, beyond 2^1024, is outside the range exercised here).
The result is again an integer since rounding keeps the scale factor. -/
def pyFloatInt (w : ℤ) : ℤ :=
  w.sign * (roundMant53 w.natAbs : ℤ)

/-- One component of `world_to_chunk_pos`:
`math.floor(world_x / CHUNK_SIZE)` under exact float semantics. -/
def world_to_chunk_1d (w : ℤ) : ℤ :=
  ⌊(pyFloatInt w : ℚ) / ((16 : ℕ) : ℚ)⌋

/-- `world_to_chunk_pos` of chunk.py. -/
def world_to_chunk_pos (x y z : ℤ) : ℤ × ℤ × ℤ :=
  (world_to_chunk_1d x, world_to_chunk_1d y, world_to_chunk_1d z)

/-- One component of `world_to_local_pos`: `world_x % CHUNK_SIZE`. -/
def world_to_local_1d (w : ℤ) : ℤ := w % 16

/-- `world_to_local_pos` of chunk.py. -/
def world_to_local_pos (x y z : ℤ) : ℤ × ℤ × ℤ :=
  (world_to_local_1d x, world_to_local_1d y, world_to_local_1d z)

/-! ## chunk.py: meshing with face culling -/

/-- `Chunk._get_neighbor_block`: in-chunk reads go to the block array,
out-of-range reads go through the owning neighbor chunk (Python `//` and
`%` are floor division and Euclidean modulo, i.e. `Int` `/` and `%` here);
an unloaded neighbor chunk reads as AIR. -/
def getNeighborBlock (w : WorldChunks) (cpos : ℤ × ℤ × ℤ) (blocks : Blocks)
    (lx ly lz : ℤ) : BlockType :=
  if inChunkRange lx ly lz then blocks lx ly lz
  else
    let ox : ℤ := if 16 ≤ lx then lx / 16 else if lx < 0 then lx / 16 else 0
    let oy : ℤ := if 16 ≤ ly then ly / 16 else if ly < 0 then ly / 16 else 0
    let oz : ℤ := if 16 ≤ lz then lz / 16 else if lz < 0 then lz / 16 else 0
    match w (cpos.1 + ox, cpos.2.1 + oy, cpos.2.2 + oz) with
    | none => BlockType.AIR
    | some nc => nc.get_block (lx % 16) (ly % 16) (lz % 16)

/-- The faces of cell `(x, y, z)` that `Chunk.generate_mesh` emits: none
for an AIR cell (the `continue`), otherwise those faces whose neighbor
block is AIR. -/
def visibleFacesAt (w : WorldChunks) (cpos : ℤ × ℤ × ℤ) (blocks : Blocks)
    (x y z : ℤ) : List Face :=
  if blocks x y z = BlockType.AIR then []
  else
    faceList.filter fun f =>
      let d := FACE_DIRECTIONS f
      decide (getNeighborBlock w cpos blocks (x + d.1) (y + d.2.1) (z + d.2.2) =
        BlockType.AIR)

/-- All visible (cell, face) pairs in the `x`/`y`/`z`/face loop order of
`Chunk.generate_mesh`. -/
def visibleFaces (w : WorldChunks) (cpos : ℤ × ℤ × ℤ) (blocks : Blocks) :
    List ((ℤ × ℤ × ℤ) × Face) :=
  (List.finRange 16).flatMap fun x =>
    (List.finRange 16).flatMap fun y =>
      (List.finRange 16).flatMap fun z =>
        (visibleFacesAt w cpos blocks x y z).map fun f =>
          (((x : ℤ), (y : ℤ), (z : ℤ)), f)

/-- The buffers built by `Chunk.generate_mesh`: per visible face, 4
vertices, the 6 `QUAD_INDICES` offset by the running vertex count (which
is 4 × the number of faces already emitted), and 4 UV pairs. -/
def generateMeshData (w : WorldChunks) (cpos : ℤ × ℤ × ℤ) (blocks : Blocks) :
    MeshData :=
  let vf := visibleFaces w cpos blocks
  { vertices := vf.flatMap fun pf =>
      (FACE_VERTICES pf.2).map fun v =>
        (pf.1.1 + v.1, pf.1.2.1 + v.2.1, pf.1.2.2 + v.2.2)
    triangles := vf.enum.flatMap fun nf =>
      QUAD_INDICES.map fun i => 4 * nf.1 + i
    uvs := vf.flatMap fun pf =>
      let u := get_block_uvs (blocks pf.1.1 pf.1.2.1 pf.1.2.2) pf.2
      [(u.1, u.2.1), (u.1, u.2.2.2), (u.2.2.1, u.2.2.2), (u.2.2.1, u.2.1)] }

/-- `Chunk.generate_mesh`: a no-op on a clean chunk; otherwise rebuilds
the buffers, stores `none` as the model when there are no vertices, and
clears the dirty flag. -/
def chunkGenerateMesh (w : WorldChunks) (cpos : ℤ × ℤ × ℤ) (c : ChunkState) :
    ChunkState :=
  if c.meshDirty = false then c
  else
    let m := generateMeshData w cpos c.blocks
    { c with mesh := if m.vertices = [] then none else some m
             meshDirty := false }

/-- `Chunk.rebuild_mesh`: force the dirty flag, then regenerate. -/
def chunkRebuildMesh (w : WorldChunks) (cpos : ℤ × ℤ × ℤ) (c : ChunkState) :
    ChunkState :=
  chunkGenerateMesh w cpos { c with meshDirty := true }

/-- A block array holding a single non-AIR cell, for the second meshing
scenario of C2. -/
def singletonBlocks (p0 : Fin 16 × Fin 16 × Fin 16) (b : BlockType) : Blocks :=
  fun x y z =>
    if x = (p0.1 : ℤ) ∧ y = (p0.2.1 : ℤ) ∧ z = (p0.2.2 : ℤ) then b
    else BlockType.AIR

/-- A fully solid chunk, used as the concrete witness neighborhood. -/
def solidChunk : ChunkState :=
  { blocks := fun _ _ _ => BlockType.STONE, meshDirty := false, mesh := none }

/-! ## world.py: block access and the DDA ray march -/

/-- `World.get_block`: chunk lookup through `world_to_chunk_pos`, AIR when
the chunk is not loaded, otherwise `Chunk.get_block` at the local
coordinates. -/
def worldGetBlock (w : WorldChunks) (x y z : ℤ) : BlockType :=
  match w (world_to_chunk_pos x y z) with
  | none => BlockType.AIR
  | some c =>
    let lp := world_to_local_pos x y z
    c.get_block lp.1 lp.2.1 lp.2.2

/-- Mutable state of the `raycast_block` loop: current voxel, previous
voxel, per-axis step signs, accumulated boundary parameters `t_max_*`,
per-axis increments `t_delta_*` (`⊤` models `float('inf')`), and the
accumulated distance. -/
structure RayState where
  x : ℤ
  y : ℤ
  z : ℤ
  px : ℤ
  py : ℤ
  pz : ℤ
  sx : ℤ
  sy : ℤ
  sz : ℤ
  tmx : WithTop ℚ
  tmy : WithTop ℚ
  tmz : WithTop ℚ
  tdx : WithTop ℚ
  tdy : WithTop ℚ
  tdz : WithTop ℚ
  traveled : WithTop ℚ

/-- The step of `raycast_block` exactly as written: `prev` is recorded,
then `if t_max_x < t_max_y and t_max_x < t_max_z` steps x,
`elif t_max_y < t_max_z` steps y, `else` steps z. -/
def codeAdvance (s : RayState) : RayState :=
  if s.tmx < s.tmy ∧ s.tmx < s.tmz then
    { s with px := s.x, py := s.y, pz := s.z,
             traveled := s.tmx, tmx := s.tmx + s.tdx, x := s.x + s.sx }
  else if s.tmy < s.tmz then
    { s with px := s.x, py := s.y, pz := s.z,
             traveled := s.tmy, tmy := s.tmy + s.tdy, y := s.y + s.sy }
  else
    { s with px := s.x, py := s.y, pz := s.z,
             traveled := s.tmz, tmz := s.tmz + s.tdz, z := s.z + s.sz }

/-- The step as the (amended) specification words it: advance along the
axis whose accumulated `t` is smallest, with ties resolved in favor of the
later axis (z over y over x). -/
def specAdvance (s : RayState) : RayState :=
  if s.tmz ≤ s.tmx ∧ s.tmz ≤ s.tmy then
    { s with px := s.x, py := s.y, pz := s.z,
             traveled := s.tmz, tmz := s.tmz + s.tdz, z := s.z + s.sz }
  else if s.tmy ≤ s.tmx then
    { s with px := s.x, py := s.y, pz := s.z,
             traveled := s.tmy, tmy := s.tmy + s.tdy, y := s.y + s.sy }
  else
    { s with px := s.x, py := s.y, pz := s.z,
             traveled := s.tmx, tmx := s.tmx + s.tdx, x := s.x + s.sx }

/-- The step as the original claim words it: ties broken by axis priority
x before y before z. -/
def claimAdvance (s : RayState) : RayState :=
  if s.tmx ≤ s.tmy ∧ s.tmx ≤ s.tmz then
    { s with px := s.x, py := s.y, pz := s.z,
             traveled := s.tmx, tmx := s.tmx + s.tdx, x := s.x + s.sx }
  else if s.tmy ≤ s.tmz then
    { s with px := s.x, py := s.y, pz := s.z,
             traveled := s.tmy, tmy := s.tmy + s.tdy, y := s.y + s.sy }
  else
    { s with px := s.x, py := s.y, pz := s.z,
             traveled := s.tmz, tmz := s.tmz + s.tdz, z := s.z + s.sz }

/-- The `while traveled < max_distance` loop of `raycast_block`, with an
explicit fuel (`none` = fuel exhausted, `some none` = the loop exited with
no hit, `some (some (hit, prev))` = a hit). -/
def raycastLoop (w : WorldChunks) (maxd : ℚ)
    (advance : RayState → RayState) :
    ℕ → RayState → Option (Option ((ℤ × ℤ × ℤ) × (ℤ × ℤ × ℤ)))
  | 0, _ => none
  | fuel + 1, s =>
    if s.traveled < (maxd : WithTop ℚ) then
      if worldGetBlock w s.x s.y s.z ≠ BlockType.AIR then
        some (some ((s.x, s.y, s.z), (s.px, s.py, s.pz)))
      else raycastLoop w maxd advance fuel (advance s)
    else some none

/-- The initial `RayState` of `raycast_block`: voxel = floor of the
origin, `prev` = that same voxel, step signs from the direction signs,
`t_max_*` the parameter of the first boundary crossing per axis and
`t_delta_*` = `|1 / direction|` (`⊤` on a zero component). The caller
passes the direction already normalized: the source normalizes it first,
which only involves the square root of the squared length. -/
def rayInit (origin dir : ℚ × ℚ × ℚ) : RayState :=
  let x : ℤ := ⌊origin.1⌋
  let y : ℤ := ⌊origin.2.1⌋
  let z : ℤ := ⌊origin.2.2⌋
  let sx : ℤ := if 0 ≤ dir.1 then 1 else -1
  let sy : ℤ := if 0 ≤ dir.2.1 then 1 else -1
  let sz : ℤ := if 0 ≤ dir.2.2 then 1 else -1
  { x := x, y := y, z := z, px := x, py := y, pz := z,
    sx := sx, sy := sy, sz := sz,
    tmx := if dir.1 = 0 then ⊤ else
      ((((x : ℚ) + (if 0 < sx then 1 else 0) - origin.1) / dir.1 : ℚ) :
        WithTop ℚ)
    tmy := if dir.2.1 = 0 then ⊤ else
      ((((y : ℚ) + (if 0 < sy then 1 else 0) - origin.2.1) / dir.2.1 : ℚ) :
        WithTop ℚ)
    tmz := if dir.2.2 = 0 then ⊤ else
      ((((z : ℚ) + (if 0 < sz then 1 else 0) - origin.2.2) / dir.2.2 : ℚ) :
        WithTop ℚ)
    tdx := if dir.1 = 0 then ⊤ else ((|1 / dir.1| : ℚ) : WithTop ℚ)
    tdy := if dir.2.1 = 0 then ⊤ else ((|1 / dir.2.1| : ℚ) : WithTop ℚ)
    tdz := if dir.2.2 = 0 then ⊤ else ((|1 / dir.2.2| : ℚ) : WithTop ℚ)
    traveled := ((0 : ℚ) : WithTop ℚ) }

/-- `World.raycast_block` (with the loop stepping as the code does). -/
def raycast_block (w : WorldChunks) (origin dir : ℚ × ℚ × ℚ) (maxd : ℚ)
    (fuel : ℕ) : Option (Option ((ℤ × ℤ × ℤ) × (ℤ × ℤ × ℤ))) :=
  if dir = (0, 0, 0) then some none
  else raycastLoop w maxd codeAdvance fuel (rayInit origin dir)

/-- The ray march as the amended specification describes it. -/
def specRaycast (w : WorldChunks) (origin dir : ℚ × ℚ × ℚ) (maxd : ℚ)
    (fuel : ℕ) : Option (Option ((ℤ × ℤ × ℤ) × (ℤ × ℤ × ℤ))) :=
  if dir = (0, 0, 0) then some none
  else raycastLoop w maxd specAdvance fuel (rayInit origin dir)

/-- The ray march as the original claim describes it (ties x first). -/
def claimRaycast (w : WorldChunks) (origin dir : ℚ × ℚ × ℚ) (maxd : ℚ)
    (fuel : ℕ) : Option (Option ((ℤ × ℤ × ℤ) × (ℤ × ℤ × ℤ))) :=
  if dir = (0, 0, 0) then some none
  else raycastLoop w maxd claimAdvance fuel (rayInit origin dir)

/-- Chunk with a single STONE block at local (0, 1, 0), for the C3
tie-break counterexample. -/
def rayChunk : ChunkState :=
  { blocks := fun x y z =>
      if x = 0 ∧ y = 1 ∧ z = 0 then BlockType.STONE else BlockType.AIR
    meshDirty := false, mesh := none }

/-- World holding only `rayChunk` at chunk (0, 0, 0). -/
def rayWorld : WorldChunks :=
  fun c => if c = (0, 0, 0) then some rayChunk else none

/-- World holding only `solidChunk` at chunk (0, 0, 0). -/
def solidWorld0 : WorldChunks :=
  fun c => if c = (0, 0, 0) then some solidChunk else none

def blocksAt (w : WorldChunks) (p : ℤ × ℤ × ℤ) : Option Blocks :=
  (w p).map ChunkState.blocks

def neighborPosList (x y z : ℤ) (lp : ℤ × ℤ × ℤ) : List (ℤ × ℤ × ℤ) :=
  (if lp.1 = 0 then [world_to_chunk_pos (x - 1) y z]
    else if lp.1 = 15 then [world_to_chunk_pos (x + 1) y z] else []) ++
  (if lp.2.1 = 0 then [world_to_chunk_pos x (y - 1) z]
    else if lp.2.1 = 15 then [world_to_chunk_pos x (y + 1) z] else []) ++
  (if lp.2.2 = 0 then [world_to_chunk_pos x y (z - 1)]
    else if lp.2.2 = 15 then [world_to_chunk_pos x y (z + 1)] else [])

def rebuildStep (wa : WorldChunks) (np : ℤ × ℤ × ℤ) : WorldChunks :=
  match wa np with
  | none => wa
  | some cn => fun p => if p = np then some (chunkRebuildMesh wa np cn) else wa p

def rebuildChunksFold (w0 : WorldChunks) (l : List (ℤ × ℤ × ℤ)) :
    WorldChunks :=
  l.foldl rebuildStep w0

def worldSetBlockLoaded (w : WorldChunks) (x y z : ℤ) (bt : BlockType)
    (cpos : ℤ × ℤ × ℤ) (c : ChunkState) : WorldChunks :=
  let lp := world_to_local_pos x y z
  let c1 := c.set_block lp.1 lp.2.1 lp.2.2 bt
  let w1 : WorldChunks := fun p => if p = cpos then some c1 else w p
  let c2 := chunkRebuildMesh w1 cpos c1
  let w2 : WorldChunks := fun p => if p = cpos then some c2 else w1 p
  rebuildChunksFold w2 (neighborPosList x y z lp)

def worldSetBlock (w : WorldChunks) (x y z : ℤ) (bt : BlockType) :
    WorldChunks × Bool :=
  match w (world_to_chunk_pos x y z) with
  | none => (w, false)
  | some c =>
    (worldSetBlockLoaded w x y z bt (world_to_chunk_pos x y z) c, true)

def meshFresh (w : WorldChunks) (p : ℤ × ℤ × ℤ) : Prop :=
  ∀ c, w p = some c → c.meshDirty = false ∧
    c.mesh = (if (generateMeshData w p c.blocks).vertices = [] then none
      else some (generateMeshData w p c.blocks))

/-! ## noise.py and world.py terrain generation

The Perlin pipeline is modelled over `ℚ` (exact arithmetic; the float
literals 0.02, 0.5, 0.4 become 1/50, 1/2, 2/5). The permutation table is
an arbitrary function `Perm` — the real table is a seeded shuffle of
`range(256)` duplicated, and every theorem below holds for every table.
The octave accumulation is written as structural recursion; it computes
the same sums as the source's `for` loop. -/

def Perm : Type := ℕ → ℕ

def GRADIENTS_2D : List (ℤ × ℤ) :=
  [(1, 0), (-1, 0), (0, 1), (0, -1), (1, 1), (-1, 1), (1, -1), (-1, -1)]

def pyAnd255 (z : ℤ) : ℕ := (z % 256).toNat

def fade (t : ℚ) : ℚ := t * t * t * (t * (t * 6 - 15) + 10)

def lerp (a b t : ℚ) : ℚ := a + t * (b - a)

def dotGridGradient (perm : Perm) (ix iy : ℤ) (x y : ℚ) : ℚ :=
  let gi := perm (pyAnd255 (ix + (perm (pyAnd255 iy) : ℤ))) % GRADIENTS_2D.length
  let g := GRADIENTS_2D.getD gi (0, 0)
  let dx := x - (ix : ℚ)
  let dy := y - (iy : ℚ)
  dx * (g.1 : ℚ) + dy * (g.2 : ℚ)

def perlin2d (perm : Perm) (x y : ℚ) : ℚ :=
  let x0 : ℤ := ⌊x⌋
  let y0 : ℤ := ⌊y⌋
  let x1 : ℤ := x0 + 1
  let y1 : ℤ := y0 + 1
  let sx := fade (x - (x0 : ℚ))
  let sy := fade (y - (y0 : ℚ))
  let n0 := dotGridGradient perm x0 y0 x y
  let n1 := dotGridGradient perm x1 y0 x y
  let ix0 := lerp n0 n1 sx
  let n0t := dotGridGradient perm x0 y1 x y
  let n1t := dotGridGradient perm x1 y1 x y
  let ix1 := lerp n0t n1t sx
  lerp ix0 ix1 sy

def octaveLoop (perm : Perm) (x y : ℚ) : ℕ → ℚ → ℚ → ℚ × ℚ
  | 0, _, _ => (0, 0)
  | n + 1, frequency, amplitude =>
    let rest := octaveLoop perm x y n (frequency * 2) (amplitude * (1/2))
    (perlin2d perm (x * frequency) (y * frequency) * amplitude + rest.1,
      amplitude + rest.2)

def octavePerlin (perm : Perm) (x y : ℚ) : ℚ :=
  let tm := octaveLoop perm x y 4 (1/50) 1
  (tm.1 / tm.2 + 1) / 2

def pyInt (q : ℚ) : ℤ := if 0 ≤ q then ⌊q⌋ else ⌈q⌉

def get_terrain_height (perm : Perm) (wx wz : ℤ) : ℤ :=
  32 + pyInt (octavePerlin perm (wx : ℚ) (wz : ℚ) * 16)

def terrainBlockFor (perm : Perm) (cpos : ℤ × ℤ × ℤ) (lx ly lz : Fin 16) :
    BlockType :=
  let wy := cpos.2.1 * 16 + (ly : ℤ)
  let h := get_terrain_height perm (cpos.1 * 16 + (lx : ℤ))
    (cpos.2.2 * 16 + (lz : ℤ))
  if wy > h then BlockType.AIR
  else if wy = h then BlockType.GRASS
  else if h - 3 ≤ wy then BlockType.DIRT
  else BlockType.STONE

def generateTerrain (perm : Perm) (cpos : ℤ × ℤ × ℤ) : ChunkState :=
  (List.finRange 16).foldl (fun c (lx : Fin 16) =>
    (List.finRange 16).foldl (fun c (lz : Fin 16) =>
      (List.finRange 16).foldl (fun c (ly : Fin 16) =>
        c.set_block (lx : ℤ) (ly : ℤ) (lz : ℤ)
          (terrainBlockFor perm cpos lx ly lz)) c) c)
    ChunkState.init

/-- Abstract model of Python's `random` module: a state-threaded generator
with `seed`, `randint` (inclusive bounds) and `random` (here `randFloat`,
in [0, 1)). The terrain code re-seeds it from chunk coordinates, so the
theorems below hold for any implementation satisfying these contracts. -/
structure RandModel where
  State : Type
  seed : ℤ → State
  randint : ℤ → ℤ → State → ℤ × State
  randFloat : State → ℚ × State
  randint_mem : ∀ a b s, a ≤ b → a ≤ (randint a b s).1 ∧ (randint a b s).1 ≤ b
  randFloat_mem : ∀ s, 0 ≤ (randFloat s).1 ∧ (randFloat s).1 < 1

def placeTree (R : RandModel) (c : ChunkState) (baseX baseY baseZ : ℤ)
    (g : R.State) : Except Unit (ChunkState × R.State) :=
  let ti := R.randint 4 6 g
  if (List.range ti.1.toNat).any (fun yy =>
      decide (0 ≤ baseY + (yy : ℤ) ∧ baseY + (yy : ℤ) < 16)) then
    Except.error ()
  else if (List.range 5).any (fun i =>
      (List.range 4).any (fun j =>
        (List.range 5).any (fun k =>
          decide (|(i : ℤ) - 2| + |(j : ℤ) - 1| + |(k : ℤ) - 2| ≤ 3 ∧
            0 ≤ baseX + ((i : ℤ) - 2) ∧ baseX + ((i : ℤ) - 2) < 16 ∧
            0 ≤ baseY + ti.1 - 1 + ((j : ℤ) - 1) ∧
            baseY + ti.1 - 1 + ((j : ℤ) - 1) < 16 ∧
            0 ≤ baseZ + ((k : ℤ) - 2) ∧ baseZ + ((k : ℤ) - 2) < 16 ∧
            c.get_block (baseX + ((i : ℤ) - 2)) (baseY + ti.1 - 1 + ((j : ℤ) - 1))
              (baseZ + ((k : ℤ) - 2)) = BlockType.AIR)))) then
    Except.error ()
  else Except.ok (c, ti.2)

def treeAttempts (R : RandModel) (perm : Perm) (cpos : ℤ × ℤ × ℤ) :
    ℕ → ChunkState → R.State → Except Unit (ChunkState × R.State)
  | 0, c, g => Except.ok (c, g)
  | n + 1, c, g =>
    let r1 := R.randint 2 13 g
    let r2 := R.randint 2 13 r1.2
    let h := get_terrain_height perm (cpos.1 * 16 + r1.1) (cpos.2.2 * 16 + r2.1)
    let ly := h - cpos.2.1 * 16
    if 0 ≤ ly ∧ ly < 16 - 6 then
      if c.get_block r1.1 ly r2.1 = BlockType.GRASS then
        if (R.randFloat r2.2).1 < 2/5 then
          match placeTree R c r1.1 (ly + 1) r2.1 (R.randFloat r2.2).2 with
          | Except.error e => Except.error e
          | Except.ok p => treeAttempts R perm cpos n p.1 p.2
        else treeAttempts R perm cpos n c (R.randFloat r2.2).2
      else treeAttempts R perm cpos n c r2.2
    else treeAttempts R perm cpos n c r2.2

def generateTrees (R : RandModel) (perm : Perm) (c : ChunkState)
    (cpos : ℤ × ℤ × ℤ) (g : R.State) : Except Unit (ChunkState × R.State) :=
  treeAttempts R perm cpos 3 c (R.seed (cpos.1 * 1000 + cpos.2.2 * 37 + cpos.2.1))

def generateChunk (R : RandModel) (perm : Perm) (w : WorldChunks)
    (cpos : ℤ × ℤ × ℤ) (g : R.State) : Except Unit (ChunkState × R.State) :=
  match generateTrees R perm (generateTerrain perm cpos) cpos g with
  | Except.error e => Except.error e
  | Except.ok p => Except.ok (chunkGenerateMesh w cpos p.1, p.2)

def unitRand : RandModel :=
  { State := Unit
    seed := fun _ => ()
    randint := fun a _ s => (a, s)
    randFloat := fun s => (0, s)
    randint_mem := fun a b s h => ⟨le_refl a, h⟩
    randFloat_mem := fun s => ⟨le_refl 0, by norm_num⟩ }

/-! ### Theorems: C8 and C4 -/

/-- Conversion of an integer to a binary64 float is exact up to `2 ^ 53`
in absolute value. -/
theorem pyFloatInt_eq_self (w : ℤ) (h : w.natAbs ≤ 2 ^ 53) :
    pyFloatInt w = w := by
  have hmant : roundMant53 w.natAbs = w.natAbs := by
    rcases lt_or_eq_of_le h with h' | h'
    · unfold roundMant53; rw [if_pos h']
    · rw [h']; decide
  unfold pyFloatInt
  rw [hmant]
  rcases lt_trichotomy w 0 with hw | hw | hw
  · rw [Int.sign_eq_neg_one_iff_neg.2 hw]
    have hna : (w.natAbs : ℤ) = -w := by omega
    rw [hna]; ring
  · subst hw; simp
  · rw [Int.sign_eq_one_iff_pos.2 hw]
    have hna : (w.natAbs : ℤ) = w := by omega
    rw [hna]; ring

/-- At world coordinate `w = 2 ^ 57 - 1` the float division inside
`world_to_chunk_pos` rounds `w / 16` up to `2 ^ 53`, so the chunk/local
round-trip of the claim fails: the code yields chunk `2 ^ 53` and local 15,
recombining to `w + 16`. -/
theorem c4_roundtrip_counterexample :
    ¬ (world_to_chunk_1d 144115188075855871 * 16 +
        world_to_local_1d 144115188075855871 = 144115188075855871) := by
  intro hcl
  rw [show world_to_chunk_1d 144115188075855871 = 9007199254740992 by
    unfold world_to_chunk_1d
    rw [Rat.floor_intCast_div_natCast]
    decide] at hcl
  revert hcl
  decide

/-- C4 (amended): for every integer world coordinate `w` with
`|w| ≤ 2 ^ 53` (the range on which binary64 floats represent integers
exactly), `world_to_chunk_pos(w) * 16 + world_to_local_pos(w) = w` and
`world_to_local_pos(w) ∈ [0, 16)`; beyond that range the float division in
`world_to_chunk_pos` rounds and the round-trip can fail. -/
theorem c4_roundtrip (w : ℤ) (h : w.natAbs ≤ 2 ^ 53) :
    world_to_chunk_1d w * 16 + world_to_local_1d w = w ∧
      0 ≤ world_to_local_1d w ∧ world_to_local_1d w < 16 := by
  have h1 : world_to_chunk_1d w = w / 16 := by
    unfold world_to_chunk_1d
    rw [pyFloatInt_eq_self w h, Rat.floor_intCast_div_natCast]
    norm_num
  refine ⟨?_, Int.emod_nonneg w (by norm_num),
    Int.emod_lt_of_pos w (by norm_num)⟩
  rw [h1, world_to_local_1d, mul_comm]
  exact Int.ediv_add_emod w 16

/-- Witness for C4 at the claim's own example `w = -3`: chunk `-1`,
local `13`. -/
theorem c4_roundtrip_witness :
    ((-3 : ℤ).natAbs ≤ 2 ^ 53 ∧
      world_to_chunk_1d (-3) * 16 + world_to_local_1d (-3) = -3 ∧
      0 ≤ world_to_local_1d (-3) ∧ world_to_local_1d (-3) < 16) ∧
    world_to_chunk_1d (-3) = -1 ∧ world_to_local_1d (-3) = 13 :=
  ⟨⟨by decide, c4_roundtrip (-3) (by decide)⟩, by
    constructor
    · unfold world_to_chunk_1d
      rw [Rat.floor_intCast_div_natCast]
      decide
    · decide⟩

/-- C8: out-of-range local reads return AIR and out-of-range local writes
leave the whole chunk state (block array and dirty flag) unchanged; an
in-range write overwrites the cell with the given kind unconditionally and
sets the dirty flag. -/
theorem c8_chunk_bounds_policy (c : ChunkState) (lx ly lz : ℤ)
    (b : BlockType) :
    (¬ inChunkRange lx ly lz →
      c.get_block lx ly lz = BlockType.AIR ∧ c.set_block lx ly lz b = c) ∧
    (inChunkRange lx ly lz →
      (c.set_block lx ly lz b).blocks lx ly lz = b ∧
      (c.set_block lx ly lz b).meshDirty = true) := by
  constructor
  · intro h
    simp [ChunkState.get_block, ChunkState.set_block, h]
  · intro h
    simp [ChunkState.set_block, h]

/-- Witness for C8 at concrete inputs: the read at local (-1, 0, 0) and a
write at (3, 4, 5). -/
theorem c8_chunk_bounds_policy_witness :
    (ChunkState.init.get_block (-1) 0 0 = BlockType.AIR ∧
      ChunkState.init.set_block (-1) 0 0 BlockType.DIRT = ChunkState.init) ∧
    ((ChunkState.init.set_block 3 4 5 BlockType.STONE).blocks 3 4 5 =
        BlockType.STONE ∧
      (ChunkState.init.set_block 3 4 5 BlockType.STONE).meshDirty = true) :=
  ⟨(c8_chunk_bounds_policy ChunkState.init (-1) 0 0 BlockType.DIRT).1
      (by decide),
    (c8_chunk_bounds_policy ChunkState.init 3 4 5 BlockType.STONE).2
      (by decide)⟩
theorem getNeighborBlock_out (w : WorldChunks) (cpos : ℤ × ℤ × ℤ)
    (blocks : Blocks) (f : Face) (x y z : Fin 16)
    (h : ¬ inChunkRange ((x : ℤ) + (FACE_DIRECTIONS f).1)
      ((y : ℤ) + (FACE_DIRECTIONS f).2.1) ((z : ℤ) + (FACE_DIRECTIONS f).2.2)) :
    getNeighborBlock w cpos blocks ((x : ℤ) + (FACE_DIRECTIONS f).1)
      ((y : ℤ) + (FACE_DIRECTIONS f).2.1) ((z : ℤ) + (FACE_DIRECTIONS f).2.2) =
    (match w (cpos.1 + (FACE_DIRECTIONS f).1, cpos.2.1 + (FACE_DIRECTIONS f).2.1,
        cpos.2.2 + (FACE_DIRECTIONS f).2.2) with
      | none => BlockType.AIR
      | some nc => nc.get_block (((x : ℤ) + (FACE_DIRECTIONS f).1) % 16)
          (((y : ℤ) + (FACE_DIRECTIONS f).2.1) % 16)
          (((z : ℤ) + (FACE_DIRECTIONS f).2.2) % 16)) := by
  have hx := x.isLt
  have hy := y.isLt
  have hz := z.isLt
  have hx0 : (0:ℤ) ≤ (x : ℤ) := Int.ofNat_nonneg _
  have hy0 : (0:ℤ) ≤ (y : ℤ) := Int.ofNat_nonneg _
  have hz0 : (0:ℤ) ≤ (z : ℤ) := Int.ofNat_nonneg _
  have hx16 : ((x : ℤ)) < 16 := by exact_mod_cast hx
  have hy16 : ((y : ℤ)) < 16 := by exact_mod_cast hy
  have hz16 : ((z : ℤ)) < 16 := by exact_mod_cast hz
  unfold getNeighborBlock
  rw [if_neg h]
  simp only [inChunkRange, CHUNK_SIZE, not_and_or, not_le, not_lt] at h
  have cx1 : ¬ ((16:ℤ) ≤ (x : ℤ)) := by omega
  have cx2 : ¬ (((x : ℤ)) < 0) := by omega
  have cy1 : ¬ ((16:ℤ) ≤ (y : ℤ)) := by omega
  have cy2 : ¬ (((y : ℤ)) < 0) := by omega
  have cz1 : ¬ ((16:ℤ) ≤ (z : ℤ)) := by omega
  have cz2 : ¬ (((z : ℤ)) < 0) := by omega
  cases f
  case TOP =>
    have he : (y : ℤ) + 1 = 16 := by
      simp only [FACE_DIRECTIONS] at h; omega
    simp only [FACE_DIRECTIONS, add_zero, he]
    simp only [if_neg cx1, if_neg cx2, if_neg cy1, if_neg cy2, if_neg cz1, if_neg cz2, add_zero]
    norm_num
  case BOTTOM =>
    have he : (y : ℤ) + -1 = -1 := by
      simp only [FACE_DIRECTIONS] at h; omega
    simp only [FACE_DIRECTIONS, add_zero, he]
    simp only [if_neg cx1, if_neg cx2, if_neg cy1, if_neg cy2, if_neg cz1, if_neg cz2, add_zero]
    norm_num
  case FRONT =>
    have he : (z : ℤ) + 1 = 16 := by
      simp only [FACE_DIRECTIONS] at h; omega
    simp only [FACE_DIRECTIONS, add_zero, he]
    simp only [if_neg cx1, if_neg cx2, if_neg cy1, if_neg cy2, if_neg cz1, if_neg cz2, add_zero]
    norm_num
  case BACK =>
    have he : (z : ℤ) + -1 = -1 := by
      simp only [FACE_DIRECTIONS] at h; omega
    simp only [FACE_DIRECTIONS, add_zero, he]
    simp only [if_neg cx1, if_neg cx2, if_neg cy1, if_neg cy2, if_neg cz1, if_neg cz2, add_zero]
    norm_num
  case LEFT =>
    have he : (x : ℤ) + -1 = -1 := by
      simp only [FACE_DIRECTIONS] at h; omega
    simp only [FACE_DIRECTIONS, add_zero, he]
    simp only [if_neg cx1, if_neg cx2, if_neg cy1, if_neg cy2, if_neg cz1, if_neg cz2, add_zero]
    norm_num
  case RIGHT =>
    have he : (x : ℤ) + 1 = 16 := by
      simp only [FACE_DIRECTIONS] at h; omega
    simp only [FACE_DIRECTIONS, add_zero, he]
    simp only [if_neg cx1, if_neg cx2, if_neg cy1, if_neg cy2, if_neg cz1, if_neg cz2, add_zero]
    norm_num

theorem flatMap_eq_single {α β : Type} (l : List α) (f : α → List β) (a0 : α)
    (h0 : a0 ∈ l) (hnd : l.Nodup) (hz : ∀ a ∈ l, a ≠ a0 → f a = []) :
    l.flatMap f = f a0 := by
  induction l with
  | nil => cases h0
  | cons hd tl ih =>
    rw [List.flatMap_cons]
    rcases List.mem_cons.1 h0 with rfl | hmem
    · have htl : tl.flatMap f = [] := by
        rw [List.flatMap_eq_nil_iff]
        intro a ha
        exact hz a (List.mem_cons_of_mem _ ha)
          (fun he => (List.nodup_cons.1 hnd).1 (he ▸ ha))
      rw [htl, List.append_nil]
    · have hhd : f hd = [] := by
        refine hz hd (List.mem_cons_self _ _) (fun he => ?_)
        exact (List.nodup_cons.1 hnd).1 (he ▸ hmem)
      rw [hhd, List.nil_append]
      exact ih hmem (List.nodup_cons.1 hnd).2
        (fun a ha hne => hz a (List.mem_cons_of_mem _ ha) hne)

theorem mesh_surrounded_vertices_nil (w : WorldChunks) (cpos : ℤ × ℤ × ℤ) (b : BlockType)
    (hb : b ≠ BlockType.AIR)
    (hn : ∀ f : Face, ∃ cn, w (cpos.1 + (FACE_DIRECTIONS f).1,
        cpos.2.1 + (FACE_DIRECTIONS f).2.1, cpos.2.2 + (FACE_DIRECTIONS f).2.2) =
        some cn ∧ ∀ x y z : ℤ, inChunkRange x y z → cn.blocks x y z ≠ BlockType.AIR) :
    (generateMeshData w cpos (fun _ _ _ => b)).vertices = [] := by
  suffices hvf : visibleFaces w cpos (fun _ _ _ => b) = [] by
    simp [generateMeshData, hvf]
  unfold visibleFaces
  rw [List.flatMap_eq_nil_iff]
  intro x _
  rw [List.flatMap_eq_nil_iff]
  intro y _
  rw [List.flatMap_eq_nil_iff]
  intro z _
  rw [List.map_eq_nil_iff]
  unfold visibleFacesAt
  rw [if_neg hb, List.filter_eq_nil_iff]
  intro f _
  rw [Bool.not_eq_true, decide_eq_false_iff_not]
  by_cases hin : inChunkRange ((x : ℤ) + (FACE_DIRECTIONS f).1)
      ((y : ℤ) + (FACE_DIRECTIONS f).2.1) ((z : ℤ) + (FACE_DIRECTIONS f).2.2)
  · unfold getNeighborBlock
    rw [if_pos hin]
    exact hb
  · rw [getNeighborBlock_out w cpos _ f x y z hin]
    obtain ⟨cn, hcn, hsolid⟩ := hn f
    rw [hcn]
    have hr : inChunkRange (((x : ℤ) + (FACE_DIRECTIONS f).1) % 16)
        (((y : ℤ) + (FACE_DIRECTIONS f).2.1) % 16)
        (((z : ℤ) + (FACE_DIRECTIONS f).2.2) % 16) := by
      unfold inChunkRange CHUNK_SIZE
      refine ⟨Int.emod_nonneg _ (by norm_num), Int.emod_lt_of_pos _ (by norm_num),
        Int.emod_nonneg _ (by norm_num), Int.emod_lt_of_pos _ (by norm_num),
        Int.emod_nonneg _ (by norm_num), Int.emod_lt_of_pos _ (by norm_num)⟩
    simp only [ChunkState.get_block, if_pos hr]
    exact hsolid _ _ _ hr

theorem mesh_singleton_visibleFaces (w : WorldChunks) (cpos : ℤ × ℤ × ℤ)
    (p0 : Fin 16 × Fin 16 × Fin 16) (b : BlockType)
    (hb : b ≠ BlockType.AIR) (hw : ∀ p, w p = none) :
    visibleFaces w cpos (singletonBlocks p0 b) =
      faceList.map (fun f => (((p0.1 : ℤ), (p0.2.1 : ℤ), (p0.2.2 : ℤ)), f)) := by
  obtain ⟨x0, y0, z0⟩ := p0
  unfold visibleFaces
  rw [flatMap_eq_single _ _ x0 (List.mem_finRange x0) (List.nodup_finRange 16)]
  swap
  · intro a _ hne
    rw [List.flatMap_eq_nil_iff]
    intro y _
    rw [List.flatMap_eq_nil_iff]
    intro z _
    rw [List.map_eq_nil_iff]
    unfold visibleFacesAt singletonBlocks
    rw [if_pos]
    simp only []
    rw [if_neg]
    intro hc
    exact hne (Fin.ext (by exact_mod_cast hc.1))
  rw [flatMap_eq_single _ _ y0 (List.mem_finRange y0) (List.nodup_finRange 16)]
  swap
  · intro a _ hne
    rw [List.flatMap_eq_nil_iff]
    intro z _
    rw [List.map_eq_nil_iff]
    unfold visibleFacesAt singletonBlocks
    rw [if_pos]
    rw [if_neg]
    intro hc
    exact hne (Fin.ext (by exact_mod_cast hc.2.1))
  rw [flatMap_eq_single _ _ z0 (List.mem_finRange z0) (List.nodup_finRange 16)]
  swap
  · intro a _ hne
    rw [List.map_eq_nil_iff]
    unfold visibleFacesAt singletonBlocks
    rw [if_pos]
    rw [if_neg]
    intro hc
    exact hne (Fin.ext (by exact_mod_cast hc.2.2))
  have hvfa : visibleFacesAt w cpos (singletonBlocks (x0, y0, z0) b)
      (x0 : ℤ) (y0 : ℤ) (z0 : ℤ) = faceList := by
    unfold visibleFacesAt
    rw [if_neg (by
      unfold singletonBlocks
      rw [if_pos ⟨rfl, rfl, rfl⟩]
      exact hb)]
    apply List.filter_eq_self.2
    intro f _
    rw [decide_eq_true_eq]
    by_cases hin : inChunkRange ((x0 : ℤ) + (FACE_DIRECTIONS f).1)
        ((y0 : ℤ) + (FACE_DIRECTIONS f).2.1) ((z0 : ℤ) + (FACE_DIRECTIONS f).2.2)
    · unfold getNeighborBlock
      rw [if_pos hin]
      unfold singletonBlocks
      rw [if_neg]
      cases f <;> simp only [FACE_DIRECTIONS] <;> intro hc <;> omega
    · unfold getNeighborBlock
      rw [if_neg hin]
      simp [hw]
  rw [hvfa]
theorem mesh_singleton_counts (w : WorldChunks) (cpos : ℤ × ℤ × ℤ)
    (p0 : Fin 16 × Fin 16 × Fin 16) (b : BlockType)
    (hb : b ≠ BlockType.AIR) (hw : ∀ p, w p = none) :
    (generateMeshData w cpos (singletonBlocks p0 b)).vertices.length = 24 ∧
    (generateMeshData w cpos (singletonBlocks p0 b)).triangles =
      [0, 1, 2, 0, 2, 3, 4, 5, 6, 4, 6, 7, 8, 9, 10, 8, 10, 11,
       12, 13, 14, 12, 14, 15, 16, 17, 18, 16, 18, 19, 20, 21, 22, 20, 22, 23] := by
  have hvf := mesh_singleton_visibleFaces w cpos p0 b hb hw
  constructor
  · simp only [generateMeshData]
    rw [hvf]
    simp [faceList, FACE_VERTICES]
  · simp only [generateMeshData]
    rw [hvf]
    simp [faceList, List.enum, List.enumFrom, QUAD_INDICES]

/-- C2: meshing culling invariant. For a chunk fully filled with one solid
block kind whose six face-adjacent neighbor chunks are loaded and fully
solid, `generate_mesh` emits zero vertices; for a chunk holding exactly one
solid block with every chunk of the world unloaded, it emits exactly 24
vertices and the 36 triangle indices `[0,1,2,0,2,3, 4,5,6,4,6,7, …]`
(6 faces × 4 vertices, quad indices offset by the running vertex count). -/
theorem c2_mesh_culling_invariant (w1 w2 : WorldChunks)
    (cpos1 cpos2 : ℤ × ℤ × ℤ) (b1 b2 : BlockType)
    (p0 : Fin 16 × Fin 16 × Fin 16) (hb1 : b1 ≠ BlockType.AIR)
    (hn : ∀ f : Face, ∃ cn, w1 (cpos1.1 + (FACE_DIRECTIONS f).1,
        cpos1.2.1 + (FACE_DIRECTIONS f).2.1,
        cpos1.2.2 + (FACE_DIRECTIONS f).2.2) = some cn ∧
        ∀ x y z : ℤ, inChunkRange x y z → cn.blocks x y z ≠ BlockType.AIR)
    (hb2 : b2 ≠ BlockType.AIR) (hw2 : ∀ p, w2 p = none) :
    (generateMeshData w1 cpos1 (fun _ _ _ => b1)).vertices = [] ∧
    (generateMeshData w2 cpos2 (singletonBlocks p0 b2)).vertices.length = 24 ∧
    (generateMeshData w2 cpos2 (singletonBlocks p0 b2)).triangles =
      [0, 1, 2, 0, 2, 3, 4, 5, 6, 4, 6, 7, 8, 9, 10, 8, 10, 11,
       12, 13, 14, 12, 14, 15, 16, 17, 18, 16, 18, 19,
       20, 21, 22, 20, 22, 23] :=
  ⟨mesh_surrounded_vertices_nil w1 cpos1 b1 hb1 hn,
    (mesh_singleton_counts w2 cpos2 p0 b2 hb2 hw2).1,
    (mesh_singleton_counts w2 cpos2 p0 b2 hb2 hw2).2⟩

/-- Witness for C2: a world of all-solid chunks around chunk (0,0,0) of
STONE, and an empty world with a single GRASS block at local (8,8,8). -/
theorem c2_mesh_culling_invariant_witness :
    (generateMeshData (fun _ => some solidChunk) (0, 0, 0)
      (fun _ _ _ => BlockType.STONE)).vertices = [] ∧
    (generateMeshData (fun _ => none) (0, 0, 0)
      (singletonBlocks (8, 8, 8) BlockType.GRASS)).vertices.length = 24 ∧
    (generateMeshData (fun _ => none) (0, 0, 0)
      (singletonBlocks (8, 8, 8) BlockType.GRASS)).triangles =
      [0, 1, 2, 0, 2, 3, 4, 5, 6, 4, 6, 7, 8, 9, 10, 8, 10, 11,
       12, 13, 14, 12, 14, 15, 16, 17, 18, 16, 18, 19,
       20, 21, 22, 20, 22, 23] :=
  c2_mesh_culling_invariant (fun _ => some solidChunk) (fun _ => none)
    (0, 0, 0) (0, 0, 0) BlockType.STONE BlockType.GRASS (8, 8, 8)
    (by decide)
    (fun f => ⟨solidChunk, rfl, fun x y z _ => by
      show BlockType.STONE ≠ BlockType.AIR
      decide⟩)
    (by decide) (fun p => rfl)

theorem world_to_chunk_1d_small (w : ℤ) (h : w.natAbs ≤ 2 ^ 53) :
    world_to_chunk_1d w = w / 16 := by
  unfold world_to_chunk_1d
  rw [pyFloatInt_eq_self w h, Rat.floor_intCast_div_natCast]
  norm_num

theorem wgb_rayWorld (x y z : ℤ) (h0 : 0 ≤ x) (h1 : x < 16) (h2 : 0 ≤ y)
    (h3 : y < 16) (h4 : 0 ≤ z) (h5 : z < 16) :
    worldGetBlock rayWorld x y z = rayChunk.blocks x y z := by
  unfold worldGetBlock world_to_chunk_pos
  rw [world_to_chunk_1d_small x (by omega), world_to_chunk_1d_small y (by omega),
    world_to_chunk_1d_small z (by omega)]
  have hx : x / 16 = 0 := by omega
  have hy : y / 16 = 0 := by omega
  have hz : z / 16 = 0 := by omega
  rw [hx, hy, hz]
  show (match rayWorld (0, 0, 0) with
    | none => BlockType.AIR
    | some c => _) = _
  rw [show rayWorld (0, 0, 0) = some rayChunk from rfl]
  unfold world_to_local_pos world_to_local_1d ChunkState.get_block
  have hmx : x % 16 = x := by omega
  have hmy : y % 16 = y := by omega
  have hmz : z % 16 = z := by omega
  simp only [hmx, hmy, hmz]
  rw [if_pos]
  unfold inChunkRange CHUNK_SIZE
  omega

theorem codeAdvance_eq_specAdvance (s : RayState) :
    codeAdvance s = specAdvance s := by
  unfold codeAdvance specAdvance
  by_cases h1 : s.tmx < s.tmy ∧ s.tmx < s.tmz
  · rw [if_pos h1, if_neg, if_neg]
    · intro hyx
      exact absurd h1.1 (not_lt.2 hyx)
    · intro hz
      exact absurd h1.2 (not_lt.2 hz.1)
  · rw [if_neg h1]
    by_cases h2 : s.tmy < s.tmz
    · rw [if_pos h2]
      have hyx : s.tmy ≤ s.tmx := by
        rcases le_or_lt s.tmy s.tmx with h | h
        · exact h
        · rcases not_and_or.1 h1 with hc | hc
          · exact absurd h (not_lt.1 hc).not_lt
          · exact absurd (lt_of_lt_of_le h2 (not_lt.1 hc)) (not_lt.2 h.le)
      rw [if_neg, if_pos hyx]
      intro hc
      exact absurd h2 (not_lt.2 hc.2)
    · rw [if_neg h2]
      have hzy : s.tmz ≤ s.tmy := not_lt.1 h2
      have hzx : s.tmz ≤ s.tmx := by
        rcases not_and_or.1 h1 with hc | hc
        · exact le_trans hzy (not_lt.1 hc)
        · exact not_lt.1 hc
      rw [if_pos ⟨hzx, hzy⟩]

theorem raycastLoop_code_eq_spec (w : WorldChunks) (maxd : ℚ) :
    ∀ fuel s, raycastLoop w maxd codeAdvance fuel s =
      raycastLoop w maxd specAdvance fuel s := by
  intro fuel
  induction fuel with
  | zero => intro s; rfl
  | succ n ih =>
    intro s
    unfold raycastLoop
    rw [codeAdvance_eq_specAdvance, ih]

theorem raycastLoop_succ (w : WorldChunks) (maxd : ℚ)
    (adv : RayState → RayState) (fuel : ℕ) (s : RayState) :
    raycastLoop w maxd adv (fuel + 1) s =
      if s.traveled < (maxd : WithTop ℚ) then
        if worldGetBlock w s.x s.y s.z ≠ BlockType.AIR then
          some (some ((s.x, s.y, s.z), (s.px, s.py, s.pz)))
        else raycastLoop w maxd adv fuel (adv s)
      else some none := rfl

/-- C3 counterexample: from origin (2/5, 1/5, 0) along the unit direction
(3/5, 4/5, 0), the first boundary parameters tie (t_max_x = t_max_y = 1).
The code steps along y and hits the STONE block at voxel (0, 1, 0); a
traversal that broke the tie x-first (as the claim states) steps along x
and returns none. -/
theorem c3_dda_tiebreak_counterexample :
    raycast_block rayWorld (2/5, 1/5, 0) (3/5, 4/5, 0) (5/4) 6 =
      some (some ((0, 1, 0), (0, 0, 0))) ∧
    claimRaycast rayWorld (2/5, 1/5, 0) (3/5, 4/5, 0) (5/4) 6 = some none := by
  have hdir : ¬ (((3/5 : ℚ), (4/5 : ℚ), (0 : ℚ)) = ((0 : ℚ), (0 : ℚ), (0 : ℚ))) := by
    intro hc
    rw [Prod.mk.injEq] at hc
    norm_num at hc
  have hinit : rayInit (2/5, 1/5, 0) (3/5, 4/5, 0) =
      { x := 0, y := 0, z := 0, px := 0, py := 0, pz := 0,
        sx := 1, sy := 1, sz := 1,
        tmx := ((1 : ℚ) : WithTop ℚ), tmy := ((1 : ℚ) : WithTop ℚ), tmz := ⊤,
        tdx := ((5/3 : ℚ) : WithTop ℚ), tdy := ((5/4 : ℚ) : WithTop ℚ),
        tdz := ⊤, traveled := ((0 : ℚ) : WithTop ℚ) } := by
    unfold rayInit
    norm_num
  have hb000 : worldGetBlock rayWorld 0 0 0 = BlockType.AIR := by
    rw [wgb_rayWorld 0 0 0 (by norm_num) (by norm_num) (by norm_num) (by norm_num)
      (by norm_num) (by norm_num)]
    simp [rayChunk]
  have hb010 : worldGetBlock rayWorld 0 1 0 = BlockType.STONE := by
    rw [wgb_rayWorld 0 1 0 (by norm_num) (by norm_num) (by norm_num) (by norm_num)
      (by norm_num) (by norm_num)]
    simp [rayChunk]
  have hb100 : worldGetBlock rayWorld 1 0 0 = BlockType.AIR := by
    rw [wgb_rayWorld 1 0 0 (by norm_num) (by norm_num) (by norm_num) (by norm_num)
      (by norm_num) (by norm_num)]
    simp [rayChunk]
  have hb110 : worldGetBlock rayWorld 1 1 0 = BlockType.AIR := by
    rw [wgb_rayWorld 1 1 0 (by norm_num) (by norm_num) (by norm_num) (by norm_num)
      (by norm_num) (by norm_num)]
    simp [rayChunk]
  constructor
  · unfold raycast_block
    rw [if_neg hdir, hinit]
    rw [show (6 : ℕ) = 5 + 1 from rfl, raycastLoop_succ]
    rw [if_pos (by exact_mod_cast WithTop.coe_lt_coe.2 (by norm_num))]
    rw [if_neg (by simp [hb000])]
    have hadv : codeAdvance
        { x := 0, y := 0, z := 0, px := 0, py := 0, pz := 0,
          sx := 1, sy := 1, sz := 1,
          tmx := ((1 : ℚ) : WithTop ℚ), tmy := ((1 : ℚ) : WithTop ℚ), tmz := ⊤,
          tdx := ((5/3 : ℚ) : WithTop ℚ), tdy := ((5/4 : ℚ) : WithTop ℚ),
          tdz := ⊤, traveled := ((0 : ℚ) : WithTop ℚ) } =
        { x := 0, y := 1, z := 0, px := 0, py := 0, pz := 0,
          sx := 1, sy := 1, sz := 1,
          tmx := ((1 : ℚ) : WithTop ℚ), tmy := ((9/4 : ℚ) : WithTop ℚ), tmz := ⊤,
          tdx := ((5/3 : ℚ) : WithTop ℚ), tdy := ((5/4 : ℚ) : WithTop ℚ),
          tdz := ⊤, traveled := ((1 : ℚ) : WithTop ℚ) } := by
      unfold codeAdvance
      rw [if_neg (by simp), if_pos (by simp [WithTop.coe_lt_top])]
      rw [← WithTop.coe_add]
      norm_num
    rw [hadv]
    rw [show (5 : ℕ) = 4 + 1 from rfl, raycastLoop_succ]
    rw [if_pos (by exact_mod_cast WithTop.coe_lt_coe.2 (by norm_num))]
    rw [if_pos (by simp [hb010])]
  · unfold claimRaycast
    rw [if_neg hdir, hinit]
    rw [show (6 : ℕ) = 5 + 1 from rfl, raycastLoop_succ]
    rw [if_pos (by exact_mod_cast WithTop.coe_lt_coe.2 (by norm_num))]
    rw [if_neg (by simp [hb000])]
    have hadv1 : claimAdvance
        { x := 0, y := 0, z := 0, px := 0, py := 0, pz := 0,
          sx := 1, sy := 1, sz := 1,
          tmx := ((1 : ℚ) : WithTop ℚ), tmy := ((1 : ℚ) : WithTop ℚ), tmz := ⊤,
          tdx := ((5/3 : ℚ) : WithTop ℚ), tdy := ((5/4 : ℚ) : WithTop ℚ),
          tdz := ⊤, traveled := ((0 : ℚ) : WithTop ℚ) } =
        { x := 1, y := 0, z := 0, px := 0, py := 0, pz := 0,
          sx := 1, sy := 1, sz := 1,
          tmx := ((8/3 : ℚ) : WithTop ℚ), tmy := ((1 : ℚ) : WithTop ℚ), tmz := ⊤,
          tdx := ((5/3 : ℚ) : WithTop ℚ), tdy := ((5/4 : ℚ) : WithTop ℚ),
          tdz := ⊤, traveled := ((1 : ℚ) : WithTop ℚ) } := by
      unfold claimAdvance
      rw [if_pos (by constructor <;> simp [le_refl]), ← WithTop.coe_add]
      norm_num
    rw [hadv1]
    rw [show (5 : ℕ) = 4 + 1 from rfl, raycastLoop_succ]
    rw [if_pos (by exact_mod_cast WithTop.coe_lt_coe.2 (by norm_num))]
    rw [if_neg (by simp [hb100])]
    have hadv2 : claimAdvance
        { x := 1, y := 0, z := 0, px := 0, py := 0, pz := 0,
          sx := 1, sy := 1, sz := 1,
          tmx := ((8/3 : ℚ) : WithTop ℚ), tmy := ((1 : ℚ) : WithTop ℚ), tmz := ⊤,
          tdx := ((5/3 : ℚ) : WithTop ℚ), tdy := ((5/4 : ℚ) : WithTop ℚ),
          tdz := ⊤, traveled := ((1 : ℚ) : WithTop ℚ) } =
        { x := 1, y := 1, z := 0, px := 1, py := 0, pz := 0,
          sx := 1, sy := 1, sz := 1,
          tmx := ((8/3 : ℚ) : WithTop ℚ), tmy := ((9/4 : ℚ) : WithTop ℚ), tmz := ⊤,
          tdx := ((5/3 : ℚ) : WithTop ℚ), tdy := ((5/4 : ℚ) : WithTop ℚ),
          tdz := ⊤, traveled := ((1 : ℚ) : WithTop ℚ) } := by
      unfold claimAdvance
      rw [if_neg (by
        intro hc
        have := WithTop.coe_le_coe.1 hc.1
        norm_num at this)]
      rw [if_pos (by simp), ← WithTop.coe_add]
      norm_num
    rw [hadv2]
    rw [show (4 : ℕ) = 3 + 1 from rfl, raycastLoop_succ]
    rw [if_pos (by exact_mod_cast WithTop.coe_lt_coe.2 (by norm_num))]
    rw [if_neg (by simp [hb110])]
    have hadv3 : claimAdvance
        { x := 1, y := 1, z := 0, px := 1, py := 0, pz := 0,
          sx := 1, sy := 1, sz := 1,
          tmx := ((8/3 : ℚ) : WithTop ℚ), tmy := ((9/4 : ℚ) : WithTop ℚ), tmz := ⊤,
          tdx := ((5/3 : ℚ) : WithTop ℚ), tdy := ((5/4 : ℚ) : WithTop ℚ),
          tdz := ⊤, traveled := ((1 : ℚ) : WithTop ℚ) } =
        { x := 1, y := 2, z := 0, px := 1, py := 1, pz := 0,
          sx := 1, sy := 1, sz := 1,
          tmx := ((8/3 : ℚ) : WithTop ℚ), tmy := ((7/2 : ℚ) : WithTop ℚ), tmz := ⊤,
          tdx := ((5/3 : ℚ) : WithTop ℚ), tdy := ((5/4 : ℚ) : WithTop ℚ),
          tdz := ⊤, traveled := ((9/4 : ℚ) : WithTop ℚ) } := by
      unfold claimAdvance
      rw [if_neg (by
        intro hc
        have := WithTop.coe_le_coe.1 hc.1
        norm_num at this)]
      rw [if_pos (by simp), ← WithTop.coe_add]
      norm_num
    rw [hadv3]
    rw [show (3 : ℕ) = 2 + 1 from rfl, raycastLoop_succ]
    rw [if_neg (by
      intro hc
      have := WithTop.coe_lt_coe.1 hc
      norm_num at this)]

/-- C3 (amended): after visiting an Empty voxel the DDA loop records it as
the previous voxel and advances exactly one voxel along the axis whose
accumulated boundary parameter t is smallest, with ties broken in favor of
the later axis (z over y over x — the code compares with strict `<`, so on
a tie the earlier axis loses); the loop returns none once the accumulated
distance reaches or exceeds max_distance, and otherwise returns the first
non-Empty voxel paired with the immediately preceding voxel: the code loop
equals the specification loop written exactly that way. -/
theorem c3_dda_tiebreak (w : WorldChunks) (maxd : ℚ) (origin dir : ℚ × ℚ × ℚ) :
    (∀ fuel s, raycastLoop w maxd codeAdvance fuel s =
      raycastLoop w maxd specAdvance fuel s) ∧
    (∀ fuel, raycast_block w origin dir maxd fuel =
      specRaycast w origin dir maxd fuel) := by
  refine ⟨raycastLoop_code_eq_spec w maxd, fun fuel => ?_⟩
  unfold raycast_block specRaycast
  by_cases h : dir = (0, 0, 0)
  · rw [if_pos h, if_pos h]
  · rw [if_neg h, if_neg h]
    exact raycastLoop_code_eq_spec w maxd fuel _

theorem wgb_solidWorld0 (x y z : ℤ) (h0 : 0 ≤ x) (h1 : x < 16) (h2 : 0 ≤ y)
    (h3 : y < 16) (h4 : 0 ≤ z) (h5 : z < 16) :
    worldGetBlock solidWorld0 x y z = BlockType.STONE := by
  unfold worldGetBlock world_to_chunk_pos
  rw [world_to_chunk_1d_small x (by omega), world_to_chunk_1d_small y (by omega),
    world_to_chunk_1d_small z (by omega)]
  have hx : x / 16 = 0 := by omega
  have hy : y / 16 = 0 := by omega
  have hz : z / 16 = 0 := by omega
  rw [hx, hy, hz]
  rw [show solidWorld0 (0, 0, 0) = some solidChunk from rfl]
  show (if inChunkRange (x % 16) (y % 16) (z % 16) then
    solidChunk.blocks (x % 16) (y % 16) (z % 16) else BlockType.AIR) =
    BlockType.STONE
  rw [if_pos]
  · rfl
  · unfold inChunkRange CHUNK_SIZE
    omega

/-- C10: when the voxel containing the ray origin (component-wise floor)
already holds a non-Empty block, `raycast_block` returns that voxel as both
the hit and the previous voxel, for every origin and nonzero direction. -/
theorem c10_origin_voxel_hit (w : WorldChunks) (origin dir : ℚ × ℚ × ℚ)
    (fuel : ℕ) (hd : dir ≠ ((0 : ℚ), (0 : ℚ), (0 : ℚ))) (hf : 0 < fuel)
    (hb : worldGetBlock w ⌊origin.1⌋ ⌊origin.2.1⌋ ⌊origin.2.2⌋ ≠
      BlockType.AIR) :
    raycast_block w origin dir 8 fuel =
      some (some ((⌊origin.1⌋, ⌊origin.2.1⌋, ⌊origin.2.2⌋),
        (⌊origin.1⌋, ⌊origin.2.1⌋, ⌊origin.2.2⌋))) := by
  obtain ⟨n, rfl⟩ : ∃ n, fuel = n + 1 := ⟨fuel - 1, by omega⟩
  unfold raycast_block
  rw [if_neg hd, raycastLoop_succ]
  have ht : (rayInit origin dir).traveled = ((0 : ℚ) : WithTop ℚ) := rfl
  have hx : (rayInit origin dir).x = ⌊origin.1⌋ := rfl
  have hy : (rayInit origin dir).y = ⌊origin.2.1⌋ := rfl
  have hz : (rayInit origin dir).z = ⌊origin.2.2⌋ := rfl
  have hpx : (rayInit origin dir).px = ⌊origin.1⌋ := rfl
  have hpy : (rayInit origin dir).py = ⌊origin.2.1⌋ := rfl
  have hpz : (rayInit origin dir).pz = ⌊origin.2.2⌋ := rfl
  rw [ht, hx, hy, hz, hpx, hpy, hpz]
  rw [if_pos (by exact_mod_cast WithTop.coe_lt_coe.2 (by norm_num))]
  rw [if_pos hb]

theorem c10_origin_voxel_hit_witness :
    (((1 : ℚ), (0 : ℚ), (0 : ℚ)) ≠ ((0 : ℚ), (0 : ℚ), (0 : ℚ)) ∧
      (0 : ℕ) < 1 ∧
      worldGetBlock solidWorld0 ⌊((1 : ℚ)/2)⌋ ⌊((1 : ℚ)/2)⌋ ⌊((1 : ℚ)/2)⌋ ≠
        BlockType.AIR) ∧
    raycast_block solidWorld0 (1/2, 1/2, 1/2) (1, 0, 0) 8 1 =
      some (some ((⌊((1 : ℚ)/2)⌋, ⌊((1 : ℚ)/2)⌋, ⌊((1 : ℚ)/2)⌋),
        (⌊((1 : ℚ)/2)⌋, ⌊((1 : ℚ)/2)⌋, ⌊((1 : ℚ)/2)⌋))) := by
  have hfl : ⌊((1 : ℚ)/2)⌋ = 0 := by norm_num
  have hb : worldGetBlock solidWorld0 ⌊((1 : ℚ)/2)⌋ ⌊((1 : ℚ)/2)⌋ ⌊((1 : ℚ)/2)⌋ ≠
      BlockType.AIR := by
    rw [hfl, wgb_solidWorld0 0 0 0 (by norm_num) (by norm_num) (by norm_num)
      (by norm_num) (by norm_num) (by norm_num)]
    simp
  have hd : (((1 : ℚ), (0 : ℚ), (0 : ℚ)) : ℚ × ℚ × ℚ) ≠ (0, 0, 0) := by
    intro hc
    rw [Prod.mk.injEq] at hc
    norm_num at hc
  exact ⟨⟨hd, by norm_num, hb⟩,
    c10_origin_voxel_hit solidWorld0 (1/2, 1/2, 1/2) (1, 0, 0) 1 hd
      (by norm_num) hb⟩

theorem inChunkRange_emod (x y z : ℤ) :
    inChunkRange (x % 16) (y % 16) (z % 16) := by
  unfold inChunkRange CHUNK_SIZE
  refine ⟨Int.emod_nonneg _ (by norm_num), Int.emod_lt_of_pos _ (by norm_num),
    Int.emod_nonneg _ (by norm_num), Int.emod_lt_of_pos _ (by norm_num),
    Int.emod_nonneg _ (by norm_num), Int.emod_lt_of_pos _ (by norm_num)⟩

theorem getNeighborBlock_congr (w w' : WorldChunks)
    (h : ∀ p, blocksAt w p = blocksAt w' p) (cpos : ℤ × ℤ × ℤ)
    (blocks : Blocks) (lx ly lz : ℤ) :
    getNeighborBlock w cpos blocks lx ly lz =
      getNeighborBlock w' cpos blocks lx ly lz := by
  simp only [getNeighborBlock]
  by_cases hin : inChunkRange lx ly lz
  · rw [if_pos hin, if_pos hin]
  · rw [if_neg hin, if_neg hin]
    set np := (cpos.1 + (if 16 ≤ lx then lx / 16 else if lx < 0 then lx / 16 else 0),
      cpos.2.1 + (if 16 ≤ ly then ly / 16 else if ly < 0 then ly / 16 else 0),
      cpos.2.2 + (if 16 ≤ lz then lz / 16 else if lz < 0 then lz / 16 else 0))
      with hnp
    have hb := h np
    unfold blocksAt at hb
    rcases hw : w np with _ | nc <;> rcases hw' : w' np with _ | nc'
    · rfl
    · rw [hw, hw'] at hb
      simp at hb
    · rw [hw, hw'] at hb
      simp at hb
    · rw [hw, hw'] at hb
      have hbe : nc.blocks = nc'.blocks := by simpa using hb
      simp only [hw, hw']
      unfold ChunkState.get_block
      rw [hbe]

theorem generateMeshData_congr (w w' : WorldChunks)
    (h : ∀ p, blocksAt w p = blocksAt w' p) (cpos : ℤ × ℤ × ℤ)
    (blocks : Blocks) :
    generateMeshData w cpos blocks = generateMeshData w' cpos blocks := by
  have hgnb : ∀ lx ly lz, getNeighborBlock w cpos blocks lx ly lz =
      getNeighborBlock w' cpos blocks lx ly lz :=
    getNeighborBlock_congr w w' h cpos blocks
  have hvfa : ∀ x y z : ℤ, visibleFacesAt w cpos blocks x y z =
      visibleFacesAt w' cpos blocks x y z := by
    intro x y z
    unfold visibleFacesAt
    simp only [hgnb]
  have hvf : visibleFaces w cpos blocks = visibleFaces w' cpos blocks := by
    unfold visibleFaces
    simp only [hvfa]
  simp only [generateMeshData]
  rw [hvf]

theorem chunkRebuildMesh_spec (w : WorldChunks) (p : ℤ × ℤ × ℤ)
    (c : ChunkState) :
    (chunkRebuildMesh w p c).blocks = c.blocks ∧
    (chunkRebuildMesh w p c).meshDirty = false ∧
    (chunkRebuildMesh w p c).mesh =
      (if (generateMeshData w p c.blocks).vertices = [] then none
        else some (generateMeshData w p c.blocks)) := by
  unfold chunkRebuildMesh chunkGenerateMesh
  simp

theorem rebuildStep_blocksAt (wa : WorldChunks) (np : ℤ × ℤ × ℤ) :
    ∀ p, blocksAt (rebuildStep wa np) p = blocksAt wa p := by
  intro p
  rcases hw : wa np with _ | cn <;> simp only [rebuildStep, hw]
  by_cases hp : p = np
  · subst hp
    simp [blocksAt, hw, (chunkRebuildMesh_spec wa p cn).1]
  · simp [blocksAt, hp]

theorem rebuildStep_fresh_preserved (wa : WorldChunks) (np q : ℤ × ℤ × ℤ)
    (hq : meshFresh wa q) : meshFresh (rebuildStep wa np) q := by
  intro c hc
  have hball := rebuildStep_blocksAt wa np
  have hgen := generateMeshData_congr _ _ hball q c.blocks
  rw [hgen]
  rcases hw : wa np with _ | cn <;> simp only [rebuildStep, hw] at hc
  · exact hq c hc
  · by_cases hqp : q = np
    · subst hqp
      rw [if_pos rfl] at hc
      have hcc : c = chunkRebuildMesh wa q cn := by injection hc.symm
      subst hcc
      obtain ⟨hbk, hdirty, hmesh⟩ := chunkRebuildMesh_spec wa q cn
      rw [hbk]
      exact ⟨hdirty, hmesh⟩
    · rw [if_neg hqp] at hc
      exact hq c hc

theorem rebuildStep_fresh_self (wa : WorldChunks) (np : ℤ × ℤ × ℤ) :
    meshFresh (rebuildStep wa np) np := by
  intro c hc
  have hball := rebuildStep_blocksAt wa np
  have hgen := generateMeshData_congr _ _ hball np c.blocks
  rw [hgen]
  rcases hw : wa np with _ | cn <;> simp only [rebuildStep, hw] at hc
  · exact absurd hc (by simp)
  · have hcc : c = chunkRebuildMesh wa np cn := by
      rw [if_pos trivial] at hc
      injection hc.symm
    subst hcc
    obtain ⟨hbk, hdirty, hmesh⟩ := chunkRebuildMesh_spec wa np cn
    rw [hbk]
    exact ⟨hdirty, hmesh⟩

theorem rebuildFold_props (l : List (ℤ × ℤ × ℤ)) : ∀ w0 : WorldChunks,
    (∀ p, blocksAt (rebuildChunksFold w0 l) p = blocksAt w0 p) ∧
    (∀ q, meshFresh w0 q → meshFresh (rebuildChunksFold w0 l) q) ∧
    (∀ q ∈ l, meshFresh (rebuildChunksFold w0 l) q) := by
  induction l with
  | nil => exact fun w0 => ⟨fun p => rfl, fun q h => h, by simp⟩
  | cons np tl ih =>
    intro w0
    have hstep : rebuildChunksFold w0 (np :: tl) =
        rebuildChunksFold (rebuildStep w0 np) tl := rfl
    rw [hstep]
    obtain ⟨ib, ifr, iall⟩ := ih (rebuildStep w0 np)
    refine ⟨fun p => (ib p).trans (rebuildStep_blocksAt w0 np p),
      fun q h => ifr q (rebuildStep_fresh_preserved w0 np q h), ?_⟩
    intro q hq
    rcases List.mem_cons.1 hq with rfl | hmem
    · exact ifr q (rebuildStep_fresh_self w0 q)
    · exact iall q hmem

/-- C5: World.set_block returns false and leaves the world unchanged when
the owning chunk is not loaded; otherwise it writes the block, immediately
regenerates the owning chunk's mesh, regenerates the mesh of every loaded
face-sharing neighbor chunk (whenever the edited local coordinate is 0 or
15 on some axis), and returns true. -/
theorem c5_world_set_block (w : WorldChunks) (x y z : ℤ) (bt : BlockType) :
    (w (world_to_chunk_pos x y z) = none →
      worldSetBlock w x y z bt = (w, false)) ∧
    (∀ c, w (world_to_chunk_pos x y z) = some c →
      (worldSetBlock w x y z bt).2 = true ∧
      worldGetBlock (worldSetBlock w x y z bt).1 x y z = bt ∧
      meshFresh (worldSetBlock w x y z bt).1 (world_to_chunk_pos x y z) ∧
      (world_to_local_1d x = 0 → meshFresh (worldSetBlock w x y z bt).1
        (world_to_chunk_pos (x - 1) y z)) ∧
      (world_to_local_1d x = 15 → meshFresh (worldSetBlock w x y z bt).1
        (world_to_chunk_pos (x + 1) y z)) ∧
      (world_to_local_1d y = 0 → meshFresh (worldSetBlock w x y z bt).1
        (world_to_chunk_pos x (y - 1) z)) ∧
      (world_to_local_1d y = 15 → meshFresh (worldSetBlock w x y z bt).1
        (world_to_chunk_pos x (y + 1) z)) ∧
      (world_to_local_1d z = 0 → meshFresh (worldSetBlock w x y z bt).1
        (world_to_chunk_pos x y (z - 1))) ∧
      (world_to_local_1d z = 15 → meshFresh (worldSetBlock w x y z bt).1
        (world_to_chunk_pos x y (z + 1)))) := by
  constructor
  · intro h
    unfold worldSetBlock
    rw [h]
  · intro c hc
    have hws : worldSetBlock w x y z bt =
        (worldSetBlockLoaded w x y z bt (world_to_chunk_pos x y z) c, true) := by
      unfold worldSetBlock
      rw [hc]
    rw [hws]
    set cpos := world_to_chunk_pos x y z with hcpos
    set c1 := c.set_block (x % 16) (y % 16) (z % 16) bt with hc1def
    set w1 : WorldChunks := fun p => if p = cpos then some c1 else w p with hw1
    set c2 := chunkRebuildMesh w1 cpos c1 with hc2def
    set w2 : WorldChunks := fun p => if p = cpos then some c2 else w1 p with hw2
    set nbrs := neighborPosList x y z (x % 16, y % 16, z % 16) with hnbrs
    have hloaded : worldSetBlockLoaded w x y z bt cpos c =
        rebuildChunksFold w2 nbrs := rfl
    rw [hloaded]
    obtain ⟨hfb, hfp, hfall⟩ := rebuildFold_props nbrs w2
    have hw2c : w2 cpos = some c2 := by rw [hw2]; simp
    have hw1c : w1 cpos = some c1 := by rw [hw1]; simp
    have hcongr12 : ∀ p, blocksAt w1 p = blocksAt w2 p := by
      intro p
      by_cases hp : p = cpos
      · subst hp
        unfold blocksAt
        rw [hw1c, hw2c]
        simp [(chunkRebuildMesh_spec w1 cpos c1).1, hc2def]
      · unfold blocksAt
        rw [hw2, hw1]
        simp [hp]
    have h2fresh : meshFresh w2 cpos := by
      intro cc hcc
      rw [hw2c] at hcc
      have : c2 = cc := by injection hcc
      subst this
      obtain ⟨hbk, hd, hm⟩ := chunkRebuildMesh_spec w1 cpos c1
      refine ⟨hd, ?_⟩
      have hg : generateMeshData w1 cpos c1.blocks =
          generateMeshData w2 cpos c2.blocks := by
        rw [show c2.blocks = c1.blocks from hbk]
        exact generateMeshData_congr w1 w2 hcongr12 cpos c1.blocks
      rw [← hg]
      exact hm
    refine ⟨rfl, ?_, hfp cpos h2fresh, ?_, ?_, ?_, ?_, ?_, ?_⟩
    · -- the write took effect
      unfold worldGetBlock
      rw [← hcpos]
      show (match rebuildChunksFold w2 nbrs cpos with
        | none => BlockType.AIR
        | some cc => cc.get_block (x % 16) (y % 16) (z % 16)) = bt
      have hbq := hfb cpos
      rcases hy : rebuildChunksFold w2 nbrs cpos with _ | c'
      · unfold blocksAt at hbq
        rw [hy, hw2c] at hbq
        simp at hbq
      · unfold blocksAt at hbq
        rw [hy, hw2c] at hbq
        have hcb : c'.blocks = c2.blocks := by simpa using hbq
        show c'.get_block (x % 16) (y % 16) (z % 16) = bt
        unfold ChunkState.get_block
        rw [if_pos (inChunkRange_emod x y z), hcb,
          (chunkRebuildMesh_spec w1 cpos c1).1, hc1def]
        unfold ChunkState.set_block
        rw [if_pos (inChunkRange_emod x y z)]
        simp
    · intro h0
      refine hfall _ ?_
      rw [hnbrs]
      unfold neighborPosList
      have h0' : x % 16 = 0 := h0
      simp [h0']
    · intro h0
      refine hfall _ ?_
      rw [hnbrs]
      unfold neighborPosList
      have h0' : x % 16 = 15 := h0
      simp [h0']
    · intro h0
      refine hfall _ ?_
      rw [hnbrs]
      unfold neighborPosList
      have h0' : y % 16 = 0 := h0
      simp [h0']
    · intro h0
      refine hfall _ ?_
      rw [hnbrs]
      unfold neighborPosList
      have h0' : y % 16 = 15 := h0
      simp [h0']
    · intro h0
      refine hfall _ ?_
      rw [hnbrs]
      unfold neighborPosList
      have h0' : z % 16 = 0 := h0
      simp [h0']
    · intro h0
      refine hfall _ ?_
      rw [hnbrs]
      unfold neighborPosList
      have h0' : z % 16 = 15 := h0
      simp [h0']

/-- Witness for C5: an unloaded world rejects the write; a world holding
one chunk accepts a write at (0, 1, 2), which lands the block and leaves
fresh meshes on the owner and the x = 0 boundary neighbor slot. -/
theorem c5_world_set_block_witness :
    worldSetBlock (fun _ => none) 5 6 7 BlockType.DIRT =
      ((fun _ => none : WorldChunks), false) ∧
    ((worldSetBlock solidWorld0 0 1 2 BlockType.DIRT).2 = true ∧
      worldGetBlock (worldSetBlock solidWorld0 0 1 2 BlockType.DIRT).1 0 1 2 =
        BlockType.DIRT ∧
      meshFresh (worldSetBlock solidWorld0 0 1 2 BlockType.DIRT).1
        (world_to_chunk_pos 0 1 2) ∧
      meshFresh (worldSetBlock solidWorld0 0 1 2 BlockType.DIRT).1
        (world_to_chunk_pos (0 - 1) 1 2)) := by
  have hcp : world_to_chunk_pos 0 1 2 = (0, 0, 0) := by
    unfold world_to_chunk_pos
    rw [world_to_chunk_1d_small 0 (by decide), world_to_chunk_1d_small 1 (by decide),
      world_to_chunk_1d_small 2 (by decide)]
    decide
  have hsome : solidWorld0 (world_to_chunk_pos 0 1 2) = some solidChunk := by
    rw [hcp]
    rfl
  have hmain := (c5_world_set_block solidWorld0 0 1 2 BlockType.DIRT).2
    solidChunk hsome
  exact ⟨(c5_world_set_block (fun _ => none) 5 6 7 BlockType.DIRT).1 rfl,
    hmain.1, hmain.2.1, hmain.2.2.1, hmain.2.2.2.1 (by decide)⟩

theorem fade_nonneg (t : ℚ) (h0 : 0 ≤ t) : 0 ≤ fade t := by
  unfold fade
  nlinarith [sq_nonneg (t - 5/4), pow_nonneg h0 3, mul_nonneg (mul_nonneg h0 h0) h0,
    mul_nonneg (mul_nonneg (mul_nonneg h0 h0) h0) (sq_nonneg (t - 5/4))]

theorem fade_le_one (t : ℚ) (h1 : t ≤ 1) (h0 : 0 ≤ t) : fade t ≤ 1 := by
  unfold fade
  nlinarith [pow_nonneg (by linarith : (0:ℚ) ≤ 1 - t) 3, sq_nonneg t,
    mul_nonneg (mul_nonneg (by linarith : (0:ℚ) ≤ 1 - t) (by linarith : (0:ℚ) ≤ 1 - t))
      (by linarith : (0:ℚ) ≤ 1 - t),
    mul_nonneg (mul_nonneg (mul_nonneg (by linarith : (0:ℚ) ≤ 1 - t)
      (by linarith : (0:ℚ) ≤ 1 - t)) (by linarith : (0:ℚ) ≤ 1 - t)) (sq_nonneg t)]

theorem fade_half_bound (t : ℚ) (h0 : 0 ≤ t) (h1 : t ≤ 1) :
    t + fade t * (1 - 2 * t) ≤ 1 / 2 := by
  unfold fade
  nlinarith [sq_nonneg ((1 - 2*t) * t * (1 - t)), sq_nonneg (1 - 2*t),
    mul_nonneg (sq_nonneg (1 - 2*t)) (mul_nonneg h0 (by linarith : (0:ℚ) ≤ 1 - t))]

theorem gradient_abs_le (i : ℕ) :
    |((GRADIENTS_2D.getD i (0, 0)).1 : ℚ)| ≤ 1 ∧
    |((GRADIENTS_2D.getD i (0, 0)).2 : ℚ)| ≤ 1 := by
  by_cases h : i < GRADIENTS_2D.length
  · unfold GRADIENTS_2D at h ⊢
    simp only [List.length_cons, List.length_nil] at h
    interval_cases i <;> constructor <;> norm_num
  · rw [List.getD_eq_default _ _ (by omega)]
    norm_num

theorem dotGridGradient_abs_le (perm : Perm) (ix iy : ℤ) (x y : ℚ) :
    |dotGridGradient perm ix iy x y| ≤ |x - (ix : ℚ)| + |y - (iy : ℚ)| := by
  have hd : dotGridGradient perm ix iy x y =
      (x - (ix : ℚ)) * ((GRADIENTS_2D.getD
          (perm (pyAnd255 (ix + (perm (pyAnd255 iy) : ℤ))) % GRADIENTS_2D.length)
          (0, 0)).1 : ℚ) +
        (y - (iy : ℚ)) * ((GRADIENTS_2D.getD
          (perm (pyAnd255 (ix + (perm (pyAnd255 iy) : ℤ))) % GRADIENTS_2D.length)
          (0, 0)).2 : ℚ) := rfl
  rw [hd]
  obtain ⟨hg1, hg2⟩ := gradient_abs_le
    (perm (pyAnd255 (ix + (perm (pyAnd255 iy) : ℤ))) % GRADIENTS_2D.length)
  set g := GRADIENTS_2D.getD
    (perm (pyAnd255 (ix + (perm (pyAnd255 iy) : ℤ))) % GRADIENTS_2D.length)
    (0, 0) with hgdef
  calc |(x - (ix : ℚ)) * (g.1 : ℚ) + (y - (iy : ℚ)) * (g.2 : ℚ)|
      ≤ |(x - (ix : ℚ)) * (g.1 : ℚ)| + |(y - (iy : ℚ)) * (g.2 : ℚ)| :=
        abs_add _ _
    _ = |x - (ix : ℚ)| * |(g.1 : ℚ)| + |y - (iy : ℚ)| * |(g.2 : ℚ)| := by
        rw [abs_mul, abs_mul]
    _ ≤ |x - (ix : ℚ)| * 1 + |y - (iy : ℚ)| * 1 := by
        nlinarith [abs_nonneg (x - (ix : ℚ)), abs_nonneg (y - (iy : ℚ)),
          abs_nonneg ((g.1 : ℚ)), abs_nonneg ((g.2 : ℚ))]
    _ = |x - (ix : ℚ)| + |y - (iy : ℚ)| := by ring

theorem abs_lerp_le (a b s ca cb : ℚ) (h0 : 0 ≤ s) (h1 : s ≤ 1)
    (ha : |a| ≤ ca) (hb : |b| ≤ cb) :
    |lerp a b s| ≤ (1 - s) * ca + s * cb := by
  unfold lerp
  have he : a + s * (b - a) = (1 - s) * a + s * b := by ring
  rw [he]
  calc |(1 - s) * a + s * b| ≤ |(1 - s) * a| + |s * b| := abs_add _ _
    _ = (1 - s) * |a| + s * |b| := by
        rw [abs_mul, abs_mul, abs_of_nonneg (by linarith), abs_of_nonneg h0]
    _ ≤ (1 - s) * ca + s * cb := by nlinarith [abs_nonneg a, abs_nonneg b]

theorem perlin2d_abs_le_one (perm : Perm) (x y : ℚ) : |perlin2d perm x y| ≤ 1 := by
  unfold perlin2d
  have hx0 : (0:ℚ) ≤ x - (⌊x⌋ : ℚ) := by
    have := Int.floor_le x
    linarith
  have hx1 : x - (⌊x⌋ : ℚ) < 1 := by
    have := Int.lt_floor_add_one x
    linarith
  have hy0 : (0:ℚ) ≤ y - (⌊y⌋ : ℚ) := by
    have := Int.floor_le y
    linarith
  have hy1 : y - (⌊y⌋ : ℚ) < 1 := by
    have := Int.lt_floor_add_one y
    linarith
  set tx := x - (⌊x⌋ : ℚ) with htx
  set ty := y - (⌊y⌋ : ℚ) with hty
  have hsx0 : 0 ≤ fade tx := fade_nonneg tx hx0
  have hsx1 : fade tx ≤ 1 := fade_le_one tx (by linarith) hx0
  have hsy0 : 0 ≤ fade ty := fade_nonneg ty hy0
  have hsy1 : fade ty ≤ 1 := fade_le_one ty (by linarith) hy0
  -- corner dot bounds
  have h00 := dotGridGradient_abs_le perm ⌊x⌋ ⌊y⌋ x y
  have h10 := dotGridGradient_abs_le perm (⌊x⌋ + 1) ⌊y⌋ x y
  have h01 := dotGridGradient_abs_le perm ⌊x⌋ (⌊y⌋ + 1) x y
  have h11 := dotGridGradient_abs_le perm (⌊x⌋ + 1) (⌊y⌋ + 1) x y
  have e10 : |x - ((⌊x⌋ + 1 : ℤ) : ℚ)| = 1 - tx := by
    rw [abs_of_nonpos] <;> push_cast <;> [skip; linarith]
    linarith [hx1]
  have e00x : |x - ((⌊x⌋ : ℤ) : ℚ)| = tx := abs_of_nonneg hx0
  have e00y : |y - ((⌊y⌋ : ℤ) : ℚ)| = ty := abs_of_nonneg hy0
  have e01 : |y - ((⌊y⌋ + 1 : ℤ) : ℚ)| = 1 - ty := by
    rw [abs_of_nonpos] <;> push_cast <;> [skip; linarith]
    linarith [hy1]
  rw [e00x, e00y] at h00
  rw [e10, e00y] at h10
  rw [e00x, e01] at h01
  rw [e10, e01] at h11
  -- row bounds
  have hrow0 := abs_lerp_le _ _ _ _ _ hsx0 hsx1 h00 h10
  have hrow1 := abs_lerp_le _ _ _ _ _ hsx0 hsx1 h01 h11
  have hfinal := abs_lerp_le _ _ (fade ty) _ _ hsy0 hsy1 hrow0 hrow1
  have hA := fade_half_bound tx hx0 (by linarith)
  have hB := fade_half_bound ty hy0 (by linarith)
  calc |_| ≤ _ := hfinal
    _ ≤ 1 := by nlinarith [hA, hB]

theorem octaveLoop_bound (perm : Perm) (x y : ℚ) :
    ∀ (n : ℕ) (freq amp : ℚ), 0 ≤ amp →
      |(octaveLoop perm x y n freq amp).1| ≤ (octaveLoop perm x y n freq amp).2 ∧
      (n ≠ 0 → amp ≤ (octaveLoop perm x y n freq amp).2) := by
  intro n
  induction n with
  | zero =>
    intro freq amp h
    exact ⟨by simp [octaveLoop], fun h => absurd rfl h⟩
  | succ m ih =>
    intro freq amp h
    obtain ⟨ih1, _⟩ := ih (freq * 2) (amp * (1/2)) (by linarith)
    have hrest2 : 0 ≤ (octaveLoop perm x y m (freq * 2) (amp * (1/2))).2 :=
      le_trans (abs_nonneg _) ih1
    have hp := perlin2d_abs_le_one perm (x * freq) (y * freq)
    constructor
    · show |perlin2d perm (x * freq) (y * freq) * amp +
        (octaveLoop perm x y m (freq * 2) (amp * (1/2))).1| ≤
        amp + (octaveLoop perm x y m (freq * 2) (amp * (1/2))).2
      calc |perlin2d perm (x * freq) (y * freq) * amp +
            (octaveLoop perm x y m (freq * 2) (amp * (1/2))).1|
          ≤ |perlin2d perm (x * freq) (y * freq) * amp| +
            |(octaveLoop perm x y m (freq * 2) (amp * (1/2))).1| := abs_add _ _
        _ ≤ amp + (octaveLoop perm x y m (freq * 2) (amp * (1/2))).2 := by
            rw [abs_mul, abs_of_nonneg h]
            nlinarith [abs_nonneg (perlin2d perm (x * freq) (y * freq))]
    · intro _
      show amp ≤ amp + (octaveLoop perm x y m (freq * 2) (amp * (1/2))).2
      linarith

theorem octavePerlin_nonneg (perm : Perm) (x y : ℚ) :
    0 ≤ octavePerlin perm x y := by
  unfold octavePerlin
  obtain ⟨hb, hge⟩ := octaveLoop_bound perm x y 4 (1/50) 1 (by norm_num)
  have hpos : 0 < (octaveLoop perm x y 4 (1/50) 1).2 := by
    have := hge (by norm_num)
    linarith
  have hdiv : -1 ≤ (octaveLoop perm x y 4 (1/50) 1).1 /
      (octaveLoop perm x y 4 (1/50) 1).2 := by
    rw [neg_le, ← neg_div]
    rw [div_le_one hpos]
    have := abs_le.1 hb
    linarith [this.1]
  show 0 ≤ ((octaveLoop perm x y 4 (1/50) 1).1 /
    (octaveLoop perm x y 4 (1/50) 1).2 + 1) / 2
  linarith

theorem get_terrain_height_floor (perm : Perm) (wx wz : ℤ) :
    get_terrain_height perm wx wz =
      32 + ⌊octavePerlin perm (wx : ℚ) (wz : ℚ) * 16⌋ := by
  unfold get_terrain_height pyInt
  rw [if_pos]
  have := octavePerlin_nonneg perm (wx : ℚ) (wz : ℚ)
  nlinarith

theorem inChunkRange_fin (a b c : Fin 16) :
    inChunkRange (a : ℤ) (b : ℤ) (c : ℤ) := by
  unfold inChunkRange CHUNK_SIZE
  have := a.isLt
  have := b.isLt
  have := c.isLt
  omega

theorem foldY_blocks (lx lz : Fin 16) (v : Fin 16 → BlockType)
    (l : List (Fin 16)) : ∀ (c : ChunkState) (qx qy qz : Fin 16),
    ((l.foldl (fun cc ly => cc.set_block (lx : ℤ) (ly : ℤ) (lz : ℤ) (v ly)) c).blocks
        (qx : ℤ) (qy : ℤ) (qz : ℤ)) =
      if qx = lx ∧ qz = lz ∧ qy ∈ l then v qy
      else c.blocks (qx : ℤ) (qy : ℤ) (qz : ℤ) := by
  induction l with
  | nil =>
    intro c qx qy qz
    simp
  | cons hd tl ih =>
    intro c qx qy qz
    rw [List.foldl_cons, ih]
    have hcast : ((qx : ℤ) = (lx : ℤ) ∧ (qy : ℤ) = (hd : ℤ) ∧
        (qz : ℤ) = (lz : ℤ)) ↔ (qx = lx ∧ qy = hd ∧ qz = lz) := by
      simp [Fin.ext_iff]
    by_cases h1 : qx = lx ∧ qz = lz ∧ qy ∈ tl
    · rw [if_pos h1, if_pos ⟨h1.1, h1.2.1, List.mem_cons_of_mem _ h1.2.2⟩]
    · rw [if_neg h1]
      unfold ChunkState.set_block
      rw [if_pos (inChunkRange_fin lx hd lz)]
      show (if (qx : ℤ) = (lx : ℤ) ∧ (qy : ℤ) = (hd : ℤ) ∧ (qz : ℤ) = (lz : ℤ)
          then v hd else c.blocks (qx : ℤ) (qy : ℤ) (qz : ℤ)) =
        if qx = lx ∧ qz = lz ∧ qy ∈ hd :: tl then v qy
        else c.blocks (qx : ℤ) (qy : ℤ) (qz : ℤ)
      by_cases h2 : qx = lx ∧ qy = hd ∧ qz = lz
      · rw [if_pos (hcast.mpr h2),
          if_pos ⟨h2.1, h2.2.2, by rw [h2.2.1]; exact List.mem_cons_self _ _⟩,
          h2.2.1]
      · rw [if_neg (fun hc => h2 (hcast.mp hc)), if_neg]
        intro hc
        rcases List.mem_cons.1 hc.2.2 with he | hm
        · exact h2 ⟨hc.1, he, hc.2.1⟩
        · exact h1 ⟨hc.1, hc.2.1, hm⟩

theorem foldZ_blocks (lx : Fin 16) (v2 : Fin 16 → Fin 16 → BlockType)
    (l : List (Fin 16)) : ∀ (c : ChunkState) (qx qy qz : Fin 16),
    ((l.foldl (fun cc lz => (List.finRange 16).foldl
        (fun cc2 ly => cc2.set_block (lx : ℤ) (ly : ℤ) (lz : ℤ) (v2 lz ly)) cc)
        c).blocks (qx : ℤ) (qy : ℤ) (qz : ℤ)) =
      if qx = lx ∧ qz ∈ l then v2 qz qy
      else c.blocks (qx : ℤ) (qy : ℤ) (qz : ℤ) := by
  induction l with
  | nil =>
    intro c qx qy qz
    simp
  | cons hd tl ih =>
    intro c qx qy qz
    rw [List.foldl_cons, ih]
    by_cases h1 : qx = lx ∧ qz ∈ tl
    · rw [if_pos h1, if_pos ⟨h1.1, List.mem_cons_of_mem _ h1.2⟩]
    · rw [if_neg h1, foldY_blocks lx hd (v2 hd) (List.finRange 16) c qx qy qz]
      by_cases h2 : qx = lx ∧ qz = hd
      · rw [if_pos ⟨h2.1, h2.2, List.mem_finRange qy⟩,
          if_pos ⟨h2.1, by rw [h2.2]; exact List.mem_cons_self _ _⟩, h2.2]
      · rw [if_neg, if_neg]
        · intro hc
          rcases List.mem_cons.1 hc.2 with he | hm
          · exact h2 ⟨hc.1, he⟩
          · exact h1 ⟨hc.1, hm⟩
        · intro hc
          exact h2 ⟨hc.1, hc.2.1⟩

theorem foldX_blocks (v3 : Fin 16 → Fin 16 → Fin 16 → BlockType)
    (l : List (Fin 16)) : ∀ (c : ChunkState) (qx qy qz : Fin 16),
    ((l.foldl (fun cc lx => (List.finRange 16).foldl
        (fun cc2 lz => (List.finRange 16).foldl
          (fun cc3 ly => cc3.set_block (lx : ℤ) (ly : ℤ) (lz : ℤ) (v3 lx lz ly))
          cc2) cc) c).blocks (qx : ℤ) (qy : ℤ) (qz : ℤ)) =
      if qx ∈ l then v3 qx qz qy
      else c.blocks (qx : ℤ) (qy : ℤ) (qz : ℤ) := by
  induction l with
  | nil =>
    intro c qx qy qz
    simp
  | cons hd tl ih =>
    intro c qx qy qz
    rw [List.foldl_cons, ih]
    by_cases h1 : qx ∈ tl
    · rw [if_pos h1, if_pos (List.mem_cons_of_mem _ h1)]
    · rw [if_neg h1, foldZ_blocks hd (v3 hd) (List.finRange 16) c qx qy qz]
      by_cases h2 : qx = hd
      · rw [if_pos ⟨h2, List.mem_finRange qz⟩,
          if_pos (by rw [h2]; exact List.mem_cons_self _ _), h2]
      · rw [if_neg (fun hc => h2 hc.1), if_neg]
        intro hc
        rcases List.mem_cons.1 hc with he | hm
        · exact h2 he
        · exact h1 hm

theorem c6_terrain_layers (perm : Perm) (cpos : ℤ × ℤ × ℤ)
    (lx ly lz : Fin 16) :
    ((generateTerrain perm cpos).blocks (lx : ℤ) (ly : ℤ) (lz : ℤ) =
      (if cpos.2.1 * 16 + (ly : ℤ) >
          get_terrain_height perm (cpos.1 * 16 + (lx : ℤ))
            (cpos.2.2 * 16 + (lz : ℤ)) then BlockType.AIR
        else if cpos.2.1 * 16 + (ly : ℤ) =
          get_terrain_height perm (cpos.1 * 16 + (lx : ℤ))
            (cpos.2.2 * 16 + (lz : ℤ)) then BlockType.GRASS
        else if get_terrain_height perm (cpos.1 * 16 + (lx : ℤ))
            (cpos.2.2 * 16 + (lz : ℤ)) - 3 ≤ cpos.2.1 * 16 + (ly : ℤ) then
          BlockType.DIRT
        else BlockType.STONE)) ∧
    (∀ x z : ℤ, get_terrain_height perm x z =
      32 + ⌊octavePerlin perm (x : ℚ) (z : ℚ) * 16⌋) := by
  constructor
  · unfold generateTerrain
    rw [foldX_blocks (fun lx lz ly => terrainBlockFor perm cpos lx ly lz)
      (List.finRange 16) ChunkState.init lx ly lz]
    rw [if_pos (List.mem_finRange lx)]
    rfl
  · exact fun x z => get_terrain_height_floor perm x z

theorem chunkGenerateMesh_blocks (w : WorldChunks) (cpos : ℤ × ℤ × ℤ)
    (c : ChunkState) : (chunkGenerateMesh w cpos c).blocks = c.blocks := by
  unfold chunkGenerateMesh
  split <;> rfl

theorem c1_wood_leaves_missing (R : RandModel) (c : ChunkState) (baseX baseY baseZ : ℤ)
    (g : R.State) (h0 : 0 ≤ baseY) (h1 : baseY < 16) :
    (∀ b : BlockType, b = BlockType.AIR ∨ b = BlockType.GRASS ∨
      b = BlockType.DIRT ∨ b = BlockType.STONE) ∧
    blockTypeAttr BlockAttr.WOOD = none ∧
    blockTypeAttr BlockAttr.LEAVES = none ∧
    placeTree R c baseX baseY baseZ g = Except.error () := by
  refine ⟨fun b => by cases b <;> simp, rfl, rfl, ?_⟩
  unfold placeTree
  rw [if_pos]
  refine List.any_eq_true.2 ⟨0, List.mem_range.2 ?_, ?_⟩
  · have h4 := (R.randint_mem 4 6 g (by norm_num)).1
    omega
  · rw [decide_eq_true_eq]
    constructor <;> [skip; skip] <;> push_cast <;> omega

theorem c9_chunk_generation_deterministic (R : RandModel) (perm : Perm) (cpos : ℤ × ℤ × ℤ)
    (w1 w2 : WorldChunks) (g1 g2 : R.State) :
    (∀ x z : ℤ, get_terrain_height perm x z = get_terrain_height perm x z) ∧
    Except.map (fun p => p.1.blocks) (generateChunk R perm w1 cpos g1) =
      Except.map (fun p => p.1.blocks) (generateChunk R perm w2 cpos g2) := by
  refine ⟨fun _ _ => rfl, ?_⟩
  unfold generateChunk
  have hgt : generateTrees R perm (generateTerrain perm cpos) cpos g1 =
      generateTrees R perm (generateTerrain perm cpos) cpos g2 := rfl
  rw [hgt]
  rcases generateTrees R perm (generateTerrain perm cpos) cpos g2 with e | p
  · rfl
  · simp [Except.map, chunkGenerateMesh_blocks]

/-- Witness for C1 at a concrete input: base (5, 3, 5) in a fresh chunk. -/
theorem c1_wood_leaves_missing_witness :
    (0 : ℤ) ≤ 3 ∧ (3 : ℤ) < 16 ∧
    placeTree unitRand ChunkState.init 5 3 5 () = Except.error () :=
  ⟨by decide, by decide,
    (c1_wood_leaves_missing unitRand ChunkState.init 5 3 5 () (by decide)
      (by decide)).2.2.2⟩
